import Mathlib

/-!
# Verification of the behavioral telemetry and sequence-analysis engine

A shallow embedding of the behavioral core of the repository
(`src/behavioral/keystroke-analyzer.ts`, `src/behavioral/metrics-engine.ts`,
the `KeystrokeTimingAnalyzer`, `BehavioralMetricsEngine` and
`BehavioralSequenceTracker` classes) together with proofs about it.

Modelling conventions:
* JavaScript numbers are modelled as `ℚ` (all arithmetic in the embedded code
  is field arithmetic on finite values; rational arithmetic is exact).
  Division by zero yields `0` in `ℚ` whereas JS yields `Infinity`/`NaN`;
  every division in the embedded code is either guarded by the source
  (`x > 0 ? _ / x : 0`) or its result is irrelevant to the theorems below
  (noted where it occurs).
* `Math.sqrt` is irrational-valued, hence not a function on `ℚ`.  The
  functions that call it take a square-root oracle `sq : ℚ → ℚ` as an
  explicit parameter, and theorems quantify over the oracle; concrete
  evaluations use `mathSqrtModel`, which agrees with `Math.sqrt` on `0` and
  on perfect squares (the only points at which witnesses evaluate it).
* Mutable class instances become explicit state records; each method becomes
  a function from the state (and the method arguments) to the new state
  and/or result.  Wall-clock reads (`Date.now()`, `new Date()`,
  `getHours()`) become explicit parameters (`now : ℚ`, `Clock`).
* `Array.prototype.slice` is embedded as `jsSlice`/`jsSliceFrom` with the
  ECMAScript index arithmetic, `push`-then-`shift` capping as `jsCapPush`.
* Open `metadata: Record<string, any>` maps are embedded as a record of
  `Option`-valued fields covering exactly the keys the embedded code reads;
  JS truthiness of `||` fallbacks on strings/numbers is preserved
  (`""` and `0` are falsy).
-/

/-! ## JavaScript primitives -/

/-- ECMAScript `Array.prototype.slice(start, end)` on lists: negative
indices count from the end, out-of-range indices are clamped. -/
def jsSlice {α : Type} (l : List α) (start fin : Int) : List α :=
  let len : Int := l.length
  let s : Int := if start < 0 then max (len + start) 0 else min start len
  let e : Int := if fin < 0 then max (len + fin) 0 else min fin len
  (l.take e.toNat).drop s.toNat

/-- ECMAScript `Array.prototype.slice(start)` (to the end of the array). -/
def jsSliceFrom {α : Type} (l : List α) (start : Int) : List α :=
  jsSlice l start l.length

/-- The `arr.push(x); if (arr.length > cap) arr.shift();` idiom used by every
bounded buffer of the engine: append, then evict the oldest entry on
overflow. -/
def jsCapPush {α : Type} (cap : Nat) (l : List α) (x : α) : List α :=
  let l1 := l ++ [x]
  if cap < l1.length then l1.tail else l1

/-- JS `s || dflt` for an optional string field: `undefined` and the empty
string (the only falsy string) fall through to the default. -/
def jsOrString (o : Option String) (dflt : String) : String :=
  match o with
  | none => dflt
  | some s => if s = "" then dflt else s

/-- JS `x || dflt` for an optional numeric field: `undefined` and `0` (the
falsy finite number) fall through to the default. -/
def jsOrNum (o : Option ℚ) (dflt : ℚ) : ℚ :=
  match o with
  | none => dflt
  | some x => if x = 0 then dflt else x

/-- JS `haystack.includes(needle)`: substring containment. -/
def jsIncludes (s pattern : String) : Bool :=
  decide (pattern.data <:+: s.data)

/-- JS truthiness of an optional string (`if (action.metadata.hashedKey)`). -/
def jsTruthyStr (o : Option String) : Bool :=
  match o with
  | none => false
  | some s => !(s = "")

/-- JS `ToInt32`: reduction of an integer into `[-2^31, 2^31)`, as performed
by the `<<` and `&` operators. -/
def toInt32 (x : Int) : Int :=
  (x + 2 ^ 31) % 2 ^ 32 - 2 ^ 31

/-- Base-`b` digit as a character, `0-9` then `a-z`; used to model
JS number-to-string conversion (decimal) and `toString(36)`. -/
def digitChar36 (d : Nat) : Char :=
  Char.ofNat (if d < 10 then 48 + d else 87 + d)

/-- Inverse of `digitChar36` on digits below 36. -/
def unDigitChar36 (c : Char) : Nat :=
  if 97 ≤ c.toNat then c.toNat - 87 else c.toNat - 48

/-- Little-endian base-`b` digits of `n`, with an explicit fuel argument so
that the recursion is structural (kernel-reducible); `fuel ≥ n` yields the
full digit expansion. -/
def digitsRev (b : Nat) : Nat → Nat → List Nat
  | _, 0 => []
  | 0, _ + 1 => []
  | fuel + 1, n + 1 => (n + 1) % b :: digitsRev b fuel ((n + 1) / b)

/-- The character list of the base-`b` representation of `n`, most
significant digit first (JS `n.toString(b)` for a nonnegative integer). -/
def natToDigitList (b n : Nat) : List Char :=
  if n = 0 then ['0'] else ((digitsRev b n n).reverse).map digitChar36

/-- JS decimal/base-36 rendering of a nonnegative integer as a string. -/
def natStr (b n : Nat) : String :=
  ⟨natToDigitList b n⟩

/-! ## Keystroke Timing Analyzer (`keystroke-analyzer.ts`) -/

/-- The event phase of a `KeystrokeEvent` (`'keydown' | 'keyup'`). -/
inductive EventPhase : Type
  | keydown : EventPhase
  | keyup : EventPhase
deriving DecidableEq, Repr

/-- `KeystrokeEvent` from `keystroke-analyzer.ts`. -/
structure KeystrokeEvent : Type where
  key : String
  timestamp : ℚ
  phase : EventPhase
  ctrlKey : Bool
  shiftKey : Bool
  altKey : Bool
deriving DecidableEq, Repr

/-- `TimingPattern` from `keystroke-analyzer.ts`. -/
structure TimingPattern : Type where
  averageInterval : ℚ
  variance : ℚ
  rhythm : List ℚ
  pauseCount : Nat
  burstCount : Nat
deriving DecidableEq, Repr

/-- `KeystrokeMetrics` from `keystroke-analyzer.ts`. -/
structure KeystrokeMetrics : Type where
  typingSpeed : ℚ
  pausePatterns : List ℚ
  decisionTime : ℚ
  rhythmConsistency : ℚ
  fatigueIndicators : ℚ
deriving DecidableEq, Repr

/-- The mutable state of a `KeystrokeTimingAnalyzer` instance. -/
structure AnalyzerState : Type where
  keyEvents : List KeystrokeEvent
  timingBuffer : List ℚ
deriving DecidableEq, Repr

/-- `private readonly bufferSize: number = 100`. -/
def analyzerBufferSize : Nat := 100

/-- `private readonly pauseThreshold: number = 1000`. -/
def pauseThreshold : ℚ := 1000

/-- `private readonly burstThreshold: number = 100`. -/
def burstThreshold : ℚ := 100

/-- A freshly constructed analyzer: both buffers empty.  Also the state
after `clearData()`. -/
def initAnalyzer : AnalyzerState :=
  { keyEvents := [], timingBuffer := [] }

/-- One step of the rolling hash loop in `hashKey`:
`hash = ((hash << 5) - hash) + char; hash = hash & hash;`.
`hash` is always a 32-bit integer on loop entry, so `hash << 5` wraps the
product `hash * 32` to 32 bits, the subtraction and addition are exact in
float64, and `hash & hash` wraps the result back to 32 bits. -/
def hashKeyStep (hash : Int) (c : Nat) : Int :=
  toInt32 (toInt32 (hash * 32) - hash + c)

/-- The integer accumulated by `hashKey`'s loop over the key's code units,
after `Math.abs`. -/
def hashKeyNat (key : String) : Nat :=
  (key.data.foldl (fun h c => hashKeyStep h c.toNat) 0).natAbs

/-- `private hashKey(key: string): string` — the privacy-preserving key
hash: rolling 32-bit hash of the character codes, rendered as
`` `key_${Math.abs(hash)}` ``. -/
def hashKey (key : String) : String :=
  "key_" ++ natStr 10 (hashKeyNat key)

/-- The privacy transformation applied to an event on ingestion:
`{ ...event, key: this.hashKey(event.key) }`. -/
def hashEvent (e : KeystrokeEvent) : KeystrokeEvent :=
  { e with key := hashKey e.key }

/-- `processKeystroke(event)`: append the hashed event (evicting the oldest
on overflow), and if a previous event remains in the buffer, append the
inter-event interval (evicting the oldest on overflow). -/
def processKeystroke (s : AnalyzerState) (event : KeystrokeEvent) : AnalyzerState :=
  let keyEvents2 := jsCapPush analyzerBufferSize s.keyEvents (hashEvent event)
  let timingBuffer2 :=
    if 1 < keyEvents2.length then
      match keyEvents2[keyEvents2.length - 2]? with
      | some prev =>
          jsCapPush analyzerBufferSize s.timingBuffer (event.timestamp - prev.timestamp)
      | none => s.timingBuffer
    else s.timingBuffer
  { keyEvents := keyEvents2, timingBuffer := timingBuffer2 }

/-- `private calculateMean(values)`: `reduce((sum, val) => sum + val, 0) / length`. -/
def calculateMean (values : List ℚ) : ℚ :=
  values.sum / values.length

/-- `private calculateVariance(values, mean)`: mean of squared deviations
(population variance). -/
def calculateVariance (values : List ℚ) (mean : ℚ) : ℚ :=
  calculateMean (values.map (fun val => (val - mean) ^ 2))

/-- `private calculateRhythm(intervals)`: the 5-wide moving averages
(`for (i = 0; i <= length - 5; i++)`), `length - 4` of them. -/
def calculateRhythm (intervals : List ℚ) : List ℚ :=
  (List.range (intervals.length + 1 - 5)).map
    (fun i => calculateMean ((intervals.drop i).take 5))

/-- `private countPauses(intervals)`: intervals strictly above 1000 ms. -/
def countPauses (intervals : List ℚ) : Nat :=
  (intervals.filter (fun interval => decide (pauseThreshold < interval))).length

/-- `private countBursts(intervals)`: intervals strictly below 100 ms. -/
def countBursts (intervals : List ℚ) : Nat :=
  (intervals.filter (fun interval => decide (interval < burstThreshold))).length

/-- `private getDefaultPattern()`: the all-zero `TimingPattern`. -/
def getDefaultPattern : TimingPattern :=
  { averageInterval := 0, variance := 0, rhythm := [], pauseCount := 0, burstCount := 0 }

/-- `extractTimingPatterns()`. -/
def extractTimingPatterns (s : AnalyzerState) : TimingPattern :=
  if s.timingBuffer.length < 2 then getDefaultPattern
  else
    let intervals := s.timingBuffer
    let averageInterval := calculateMean intervals
    { averageInterval := averageInterval
      variance := calculateVariance intervals averageInterval
      rhythm := calculateRhythm intervals
      pauseCount := countPauses intervals
      burstCount := countBursts intervals }

/-- `private calculateTypingSpeed()`: approximate words per minute. -/
def calculateTypingSpeed (s : AnalyzerState) : ℚ :=
  if s.keyEvents.length < 2 then 0
  else
    match s.keyEvents.getLast?, s.keyEvents.head? with
    | some lastEvt, some firstEvt =>
        let timeSpan := lastEvt.timestamp - firstEvt.timestamp
        let minutes := timeSpan / (1000 * 60)
        let keystrokes : ℚ := s.keyEvents.length
        if 0 < minutes then (keystrokes / 5) / minutes else 0
    | _, _ => 0

/-- `private analyzePausePatterns()`: bucket the paused intervals into
short (<2000 ms), medium (2000–4999 ms) and long (≥5000 ms) counts. -/
def analyzePausePatterns (s : AnalyzerState) : List ℚ :=
  let pauses := s.timingBuffer.filter (fun interval => decide (pauseThreshold < interval))
  let shortPauses : ℚ := (pauses.filter (fun p => decide (p < 2000))).length
  let mediumPauses : ℚ := (pauses.filter (fun p => decide (2000 ≤ p) && decide (p < 5000))).length
  let longPauses : ℚ := (pauses.filter (fun p => decide (5000 ≤ p))).length
  [shortPauses, mediumPauses, longPauses]

/-- `private calculateDecisionTime()`: mean of paused intervals, 0 if none. -/
def calculateDecisionTime (s : AnalyzerState) : ℚ :=
  let pauses := s.timingBuffer.filter (fun interval => decide (pauseThreshold < interval))
  if 0 < pauses.length then calculateMean pauses else 0

/-- `private calculateRhythmConsistency(pattern)`; `sq` is the `Math.sqrt`
oracle. -/
def calculateRhythmConsistency (sq : ℚ → ℚ) (pattern : TimingPattern) : ℚ :=
  if pattern.rhythm.length < 2 then 0
  else
    let mean := calculateMean pattern.rhythm
    let variance := calculateVariance pattern.rhythm mean
    let stdDev := sq variance
    if 0 < mean then 1 - stdDev / mean else 0

/-- `private detectFatigueIndicators(pattern)`: relative increase of the
mean of the last 10 rhythm values over the mean of the first 10. -/
def detectFatigueIndicators (pattern : TimingPattern) : ℚ :=
  let recentRhythm := jsSliceFrom pattern.rhythm (-10)
  let earlyRhythm := jsSlice pattern.rhythm 0 10
  if recentRhythm.length = 0 ∨ earlyRhythm.length = 0 then 0
  else
    let recentMean := calculateMean recentRhythm
    let earlyMean := calculateMean earlyRhythm
    if earlyMean < recentMean then (recentMean - earlyMean) / earlyMean else 0

/-- `analyzeStatistics()`. -/
def analyzeStatistics (sq : ℚ → ℚ) (s : AnalyzerState) : KeystrokeMetrics :=
  let pattern := extractTimingPatterns s
  { typingSpeed := calculateTypingSpeed s
    pausePatterns := analyzePausePatterns s
    decisionTime := calculateDecisionTime s
    rhythmConsistency := calculateRhythmConsistency sq pattern
    fatigueIndicators := detectFatigueIndicators pattern }

/-- A computable stand-in for `Math.sqrt`, used only to instantiate
oracle-quantified theorems at concrete inputs.  It agrees with `Math.sqrt`
at `0` and at rationals whose numerator and denominator are perfect
squares — the only inputs the witnesses below feed it. -/
def mathSqrtModel (q : ℚ) : ℚ :=
  if q ≤ 0 then 0 else (Nat.sqrt q.num.toNat : ℚ) / (Nat.sqrt q.den : ℚ)

/-! ## Behavioral actions (`interfaces/common.ts`, `interfaces/behavioral.ts`) -/

/-- `enum ActionType` from `interfaces/common.ts`. -/
inductive ActionType : Type
  | keystroke : ActionType
  | mouseClick : ActionType
  | mouseMove : ActionType
  | codeEdit : ActionType
  | fileSwitch : ActionType
  | contextSwitch : ActionType
deriving DecidableEq, Repr

/-- The string value of each `ActionType` enum member. -/
def actionTypeName (t : ActionType) : String :=
  match t with
  | .keystroke => "keystroke"
  | .mouseClick => "mouse_click"
  | .mouseMove => "mouse_move"
  | .codeEdit => "code_edit"
  | .fileSwitch => "file_switch"
  | .contextSwitch => "context_switch"

/-- `ContextSwitch['reason']` from `metrics-engine.ts`:
`'file_switch' | 'application_switch' | 'focus_loss' | 'manual'`. -/
inductive SwitchReason : Type
  | fileSwitchR : SwitchReason
  | applicationSwitch : SwitchReason
  | focusLoss : SwitchReason
  | manual : SwitchReason
deriving DecidableEq, Repr

/-- The string value of each reason code. -/
def switchReasonName (r : SwitchReason) : String :=
  match r with
  | .fileSwitchR => "file_switch"
  | .applicationSwitch => "application_switch"
  | .focusLoss => "focus_loss"
  | .manual => "manual"

/-- The modifier-flag object stored under `metadata.modifiers`. -/
structure Modifiers : Type where
  ctrl : Bool
  shift : Bool
  alt : Bool
deriving DecidableEq, Repr

/-- The open `metadata: Record<string, any>` of a `BehavioralAction`,
restricted to the keys the embedded code reads.  `toTarget` models the
`to` key of context-switch metadata; absent keys are `none`. -/
structure ActionMetadata : Type where
  hashedKey : Option String := none
  eventType : Option EventPhase := none
  modifiers : Option Modifiers := none
  fileName : Option String := none
  toTarget : Option String := none
  context : Option String := none
  reason : Option SwitchReason := none
deriving DecidableEq, Repr

/-- `BehavioralAction` from `interfaces/behavioral.ts`. -/
structure BehavioralAction : Type where
  type : ActionType
  timestamp : ℚ
  duration : ℚ
  metadata : ActionMetadata
deriving DecidableEq, Repr

/-! ## Behavioral Metrics Engine (`metrics-engine.ts`, first class) -/

/-- `BehavioralMetrics` from `interfaces/behavioral.ts`. -/
structure BehavioralMetrics : Type where
  typingSpeed : ℚ
  pausePatterns : List ℚ
  decisionTime : ℚ
  contextSwitches : ℚ
  fatigueLevel : ℚ
deriving DecidableEq, Repr

/-- `TemporalMetrics` from `metrics-engine.ts`. -/
structure TemporalMetrics : Type where
  timestamp : ℚ
  metrics : BehavioralMetrics
  sessionId : String
  duration : ℚ
deriving DecidableEq, Repr

/-- `FatigueIndicators` from `metrics-engine.ts`. -/
structure FatigueIndicators : Type where
  typingSpeedDecline : ℚ
  increasedPauseFrequency : ℚ
  rhythmInconsistency : ℚ
  overallFatigueScore : ℚ
deriving DecidableEq, Repr

/-- `PatternStorage` from `metrics-engine.ts`; the `Map` keeps JS insertion
order, embedded as an association list. -/
structure PatternStorage : Type where
  userId : String
  patterns : List (String × List TemporalMetrics)
  currentSession : String
  sessionStartTime : ℚ
deriving DecidableEq, Repr

/-- The mutable state of a `BehavioralMetricsEngine` instance. -/
structure EngineState : Type where
  keystrokeAnalyzer : AnalyzerState
  patternStorage : PatternStorage
  metricsHistory : List TemporalMetrics
deriving DecidableEq, Repr

/-- `private readonly maxHistorySize: number = 1000`. -/
def maxHistorySize : Nat := 1000

/-- `private readonly sessionTimeoutMs: number = 30 * 60 * 1000`. -/
def sessionTimeoutMs : ℚ := 30 * 60 * 1000

/-- `private readonly fatigueWindowSize: number = 10`. -/
def fatigueWindowSize : Nat := 10

/-- `private generateSessionId()`:
`` `session_${Date.now()}_${Math.random().toString(36).substr(2, 9)}` ``.
The wall-clock millisecond reading is the parameter `t`; the random suffix
(base-36 characters `0-9a-z`) is modelled as the base-36 rendering of an
abstract random draw `r`.  The string is assembled at the character level,
exactly the template-literal concatenation. -/
def generateSessionId (t r : Nat) : String :=
  ⟨"session_".data ++ natToDigitList 10 t ++ '_' :: natToDigitList 36 r⟩

/-- `constructor(userId)`; `t`, `r` feed the initial session id and `now`
the initial `new Date()`. -/
def mkEngine (userId : String) (t r : Nat) (now : ℚ) : EngineState :=
  { keystrokeAnalyzer := initAnalyzer
    patternStorage :=
      { userId := userId
        patterns := []
        currentSession := generateSessionId t r
        sessionStartTime := now }
    metricsHistory := [] }

/-- `private getSessionDuration()`: `Date.now() - sessionStartTime`. -/
def getSessionDuration (now : ℚ) (s : EngineState) : ℚ :=
  now - s.patternStorage.sessionStartTime

/-- `private getDefaultFatigueIndicators()`. -/
def getDefaultFatigueIndicators : FatigueIndicators :=
  { typingSpeedDecline := 0, increasedPauseFrequency := 0
    rhythmInconsistency := 0, overallFatigueScore := 0 }

/-- `private calculateAverageTypingSpeed(metrics)`. -/
def calculateAverageTypingSpeed (metrics : List TemporalMetrics) : ℚ :=
  if metrics.length = 0 then 0
  else (metrics.map (fun m => m.metrics.typingSpeed)).sum / metrics.length

/-- `private calculateAveragePauseFrequency(metrics)`: mean over entries of
the summed pause-pattern histogram. -/
def calculateAveragePauseFrequency (metrics : List TemporalMetrics) : ℚ :=
  if metrics.length = 0 then 0
  else
    let totalPauses := (metrics.map (fun m => m.metrics.pausePatterns.sum)).sum
    totalPauses / metrics.length

/-- `private calculateAverageRhythmConsistency(metrics)`: rhythm-consistency
proxy `1 - stddev/mean` over the decision times; `sq` is the `Math.sqrt`
oracle. -/
def calculateAverageRhythmConsistency (sq : ℚ → ℚ) (metrics : List TemporalMetrics) : ℚ :=
  if metrics.length = 0 then 0
  else
    let decisionTimes := metrics.map (fun m => m.metrics.decisionTime)
    let mean : ℚ := decisionTimes.sum / decisionTimes.length
    let variance : ℚ :=
      (decisionTimes.map (fun dt => (dt - mean) ^ 2)).sum / decisionTimes.length
    let stdDev := sq variance
    if 0 < mean then 1 - stdDev / mean else 0

/-- `detectFatigue()`: compares the most recent window of 10 history entries
against the window immediately preceding it.  Depends only on
`metricsHistory`, so it is embedded as a function of the history list. -/
def detectFatigue (sq : ℚ → ℚ) (history : List TemporalMetrics) : FatigueIndicators :=
  if history.length < fatigueWindowSize then getDefaultFatigueIndicators
  else
    let recentMetrics := jsSliceFrom history (-(fatigueWindowSize : Int))
    let earlierMetrics :=
      jsSlice history (max 0 ((history.length : Int) - fatigueWindowSize * 2))
        (-(fatigueWindowSize : Int))
    if earlierMetrics.length = 0 then getDefaultFatigueIndicators
    else
      let recentAvgSpeed := calculateAverageTypingSpeed recentMetrics
      let earlierAvgSpeed := calculateAverageTypingSpeed earlierMetrics
      let recentAvgPauses := calculateAveragePauseFrequency recentMetrics
      let earlierAvgPauses := calculateAveragePauseFrequency earlierMetrics
      let recentRhythmConsistency := calculateAverageRhythmConsistency sq recentMetrics
      let earlierRhythmConsistency := calculateAverageRhythmConsistency sq earlierMetrics
      let typingSpeedDecline :=
        if 0 < earlierAvgSpeed then max 0 ((earlierAvgSpeed - recentAvgSpeed) / earlierAvgSpeed)
        else 0
      let increasedPauseFrequency :=
        if 0 < earlierAvgPauses then max 0 ((recentAvgPauses - earlierAvgPauses) / earlierAvgPauses)
        else 0
      let rhythmInconsistency :=
        if 0 < earlierRhythmConsistency then
          max 0 ((earlierRhythmConsistency - recentRhythmConsistency) / earlierRhythmConsistency)
        else 0
      { typingSpeedDecline := typingSpeedDecline
        increasedPauseFrequency := increasedPauseFrequency
        rhythmInconsistency := rhythmInconsistency
        overallFatigueScore :=
          (typingSpeedDecline + increasedPauseFrequency + rhythmInconsistency) / 3 }

/-- `private calculateFatigueLevel(keystrokeMetrics)`: delegates to
`detectFatigue` over the engine's own history (the keystroke metrics
argument is unused by the source as well). -/
def calculateFatigueLevel (sq : ℚ → ℚ) (history : List TemporalMetrics)
    (_keystrokeMetrics : KeystrokeMetrics) : ℚ :=
  (detectFatigue sq history).overallFatigueScore

/-- `startNewSession()`: fresh session id, reset start time, clear the
keystroke analyzer (`t`, `r`, `now` are the wall-clock/random reads). -/
def startNewSession (t r : Nat) (now : ℚ) (s : EngineState) : EngineState :=
  { s with
    patternStorage :=
      { s.patternStorage with
        currentSession := generateSessionId t r
        sessionStartTime := now }
    keystrokeAnalyzer := initAnalyzer }

/-- `private storeMetrics(metrics)`: append to the capped history, then
start a new session if the session timed out. -/
def storeMetrics (t r : Nat) (now : ℚ) (s : EngineState) (metrics : BehavioralMetrics) :
    EngineState :=
  let temporalMetrics : TemporalMetrics :=
    { timestamp := now
      metrics := metrics
      sessionId := s.patternStorage.currentSession
      duration := getSessionDuration now s }
  let s1 := { s with metricsHistory := jsCapPush maxHistorySize s.metricsHistory temporalMetrics }
  if sessionTimeoutMs < getSessionDuration now s1 then startNewSession t r now s1 else s1

/-- `private countContextSwitches(actions)`. -/
def countContextSwitches (actions : List BehavioralAction) : Nat :=
  (actions.filter (fun action => decide (action.type = ActionType.contextSwitch))).length

/-- `calculateMetrics(actions)`: route keystroke actions with a (truthy)
hashed key into the analyzer, count context switches, derive the fatigue
level from the engine's own history, and append the snapshot to the capped
history.  Returns the metrics together with the updated engine state. -/
def calculateMetrics (sq : ℚ → ℚ) (t r : Nat) (now : ℚ) (s : EngineState)
    (actions : List BehavioralAction) : BehavioralMetrics × EngineState :=
  let keystrokeActions := actions.filter (fun action => decide (action.type = ActionType.keystroke))
  let contextSwitches : ℚ := countContextSwitches actions
  let analyzer1 := keystrokeActions.foldl
    (fun an action =>
      if jsTruthyStr action.metadata.hashedKey then
        processKeystroke an
          { key := action.metadata.hashedKey.getD ("")
            timestamp := action.timestamp
            phase := action.metadata.eventType.getD EventPhase.keydown
            ctrlKey := (action.metadata.modifiers.map Modifiers.ctrl).getD false
            shiftKey := (action.metadata.modifiers.map Modifiers.shift).getD false
            altKey := (action.metadata.modifiers.map Modifiers.alt).getD false }
      else an)
    s.keystrokeAnalyzer
  let keystrokeMetrics := analyzeStatistics sq analyzer1
  let fatigueLevel := calculateFatigueLevel sq s.metricsHistory keystrokeMetrics
  let metrics : BehavioralMetrics :=
    { typingSpeed := keystrokeMetrics.typingSpeed
      pausePatterns := keystrokeMetrics.pausePatterns
      decisionTime := keystrokeMetrics.decisionTime
      contextSwitches := contextSwitches
      fatigueLevel := fatigueLevel }
  let s1 := { s with keystrokeAnalyzer := analyzer1 }
  (metrics, storeMetrics t r now s1 metrics)

/-- The `Map` update performed by `storePattern`: push onto the existing
label's (capped) list, or append a fresh singleton entry in insertion
order. -/
def storePatternUpdate (pattern : String) (tm : TemporalMetrics) :
    List (String × List TemporalMetrics) → List (String × List TemporalMetrics)
  | [] => [(pattern, [tm])]
  | (k, v) :: rest =>
      if k = pattern then (k, jsCapPush maxHistorySize v tm) :: rest
      else (k, v) :: storePatternUpdate pattern tm rest

/-- `storePattern(pattern, metrics)`: append to the label-keyed secondary
index (insertion-ordered `Map`), capping each label's list at 1000. -/
def storePattern (now : ℚ) (s : EngineState) (pattern : String) (metrics : BehavioralMetrics) :
    EngineState :=
  let temporalMetrics : TemporalMetrics :=
    { timestamp := now
      metrics := metrics
      sessionId := s.patternStorage.currentSession
      duration := getSessionDuration now s }
  { s with patternStorage :=
      { s.patternStorage with
        patterns := storePatternUpdate pattern temporalMetrics s.patternStorage.patterns } }

/-- `private calculateFatigueProgression(sessionMetrics)`: first-half versus
second-half average typing speed. -/
def calculateFatigueProgression (sessionMetrics : List TemporalMetrics) : ℚ :=
  if sessionMetrics.length < 2 then 0
  else
    let firstHalf := jsSlice sessionMetrics 0 (sessionMetrics.length / 2)
    let secondHalf := jsSliceFrom sessionMetrics (sessionMetrics.length / 2)
    let firstHalfAvgSpeed := calculateAverageTypingSpeed firstHalf
    let secondHalfAvgSpeed := calculateAverageTypingSpeed secondHalf
    if 0 < firstHalfAvgSpeed then
      max 0 ((firstHalfAvgSpeed - secondHalfAvgSpeed) / firstHalfAvgSpeed)
    else 0

/-- The record returned by `getSessionStatistics()`. -/
structure SessionStatistics : Type where
  sessionId : String
  duration : ℚ
  metricsCount : Nat
  averageTypingSpeed : ℚ
  totalContextSwitches : ℚ
  fatigueProgression : ℚ
deriving DecidableEq, Repr

/-- `getSessionStatistics()`. -/
def getSessionStatistics (now : ℚ) (s : EngineState) : SessionStatistics :=
  let sessionMetrics :=
    s.metricsHistory.filter (fun m => decide (m.sessionId = s.patternStorage.currentSession))
  let averageTypingSpeed :=
    if 0 < sessionMetrics.length then
      (sessionMetrics.map (fun m => m.metrics.typingSpeed)).sum / sessionMetrics.length
    else 0
  { sessionId := s.patternStorage.currentSession
    duration := getSessionDuration now s
    metricsCount := sessionMetrics.length
    averageTypingSpeed := averageTypingSpeed
    totalContextSwitches := (sessionMetrics.map (fun m => m.metrics.contextSwitches)).sum
    fatigueProgression := calculateFatigueProgression sessionMetrics }

/-! ## Behavioral Sequence Tracker (`metrics-engine.ts`, second class) -/

/-- The ambient wall clock visible to the tracker (`Date.now()` /
`new Date()` and `new Date().getHours()` are read, never stored between
calls except through the produced records). -/
structure Clock : Type where
  now : ℚ
  hours : ℚ
deriving DecidableEq, Repr

/-- `SequenceConfig`. -/
structure SequenceConfig : Type where
  bufferSize : ℚ
  contextSwitchThreshold : ℚ
  focusLossThreshold : ℚ
  patternChangeThreshold : ℚ
deriving DecidableEq, Repr

/-- `Partial<SequenceConfig>`: every field optional. -/
structure SequenceConfigOverride : Type where
  bufferSize : Option ℚ := none
  contextSwitchThreshold : Option ℚ := none
  focusLossThreshold : Option ℚ := none
  patternChangeThreshold : Option ℚ := none
deriving DecidableEq, Repr

/-- The constructor's config merge: `config.field || default` for each
field (JS `||`, so a supplied `0` also falls back to the default). -/
def mkSequenceConfig (config : SequenceConfigOverride) : SequenceConfig :=
  { bufferSize := jsOrNum config.bufferSize 50
    contextSwitchThreshold := jsOrNum config.contextSwitchThreshold 2000
    focusLossThreshold := jsOrNum config.focusLossThreshold 30000
    patternChangeThreshold := jsOrNum config.patternChangeThreshold (5 / 100) }

/-- `updateConfig(newConfig)`: `{ ...this.config, ...newConfig }` — keys
present in the partial override replace the current values, absent keys
keep them. -/
def updateConfig (config : SequenceConfig) (newConfig : SequenceConfigOverride) :
    SequenceConfig :=
  { bufferSize := newConfig.bufferSize.getD config.bufferSize
    contextSwitchThreshold := newConfig.contextSwitchThreshold.getD config.contextSwitchThreshold
    focusLossThreshold := newConfig.focusLossThreshold.getD config.focusLossThreshold
    patternChangeThreshold :=
      newConfig.patternChangeThreshold.getD config.patternChangeThreshold }

/-- `ContextSnapshot` from `interfaces/common.ts`. -/
structure ContextSnapshot : Type where
  fileType : String
  projectContext : String
  timeOfDay : ℚ
  sessionDuration : ℚ
deriving DecidableEq, Repr

/-- `ActionSequence`. -/
structure ActionSequence : Type where
  id : String
  actions : List BehavioralAction
  startTime : ℚ
  endTime : ℚ
  context : ContextSnapshot
  patterns : List String
deriving DecidableEq, Repr

/-- `ContextSwitch`. -/
structure ContextSwitch : Type where
  timestamp : ℚ
  fromContext : String
  toContext : String
  duration : ℚ
  reason : SwitchReason
deriving DecidableEq, Repr

/-- `FocusSegment`. -/
structure FocusSegment : Type where
  startTime : ℚ
  endTime : ℚ
  duration : ℚ
  context : String
  activityLevel : ℚ
deriving DecidableEq, Repr

/-- `FocusPattern`. -/
structure FocusPattern : Type where
  sessionId : String
  focusSegments : List FocusSegment
  totalFocusTime : ℚ
  averageFocusSegment : ℚ
  interruptionCount : Nat
deriving DecidableEq, Repr

/-- The `changeType` classification of a `PatternChangeEvent`. -/
inductive ChangeType : Type
  | gradual : ChangeType
  | sudden : ChangeType
  | cyclical : ChangeType
deriving DecidableEq, Repr

/-- `PatternChangeEvent`. -/
structure PatternChangeEvent : Type where
  timestamp : ℚ
  previousPattern : String
  newPattern : String
  confidence : ℚ
  changeType : ChangeType
  statisticalSignificance : ℚ
deriving DecidableEq, Repr

/-- The mutable state of a `BehavioralSequenceTracker` instance.
`patternHistory` (a `Map<string, number[]>`) is declared by the source but
never written outside `clearData`; it is kept for completeness. -/
structure TrackerState : Type where
  config : SequenceConfig
  actionBuffer : List BehavioralAction
  sequences : List ActionSequence
  contextSwitches : List ContextSwitch
  currentContext : String
  lastActivityTime : ℚ
  focusSegments : List FocusSegment
  currentFocusSegment : Option FocusSegment
  patternHistory : List (String × List ℚ)
  sequenceIdCounter : Nat
deriving DecidableEq, Repr

/-- `private readonly maxSequences: number = 100`. -/
def maxSequences : Nat := 100

/-- `private readonly maxContextSwitches: number = 500`. -/
def maxContextSwitches : Nat := 500

/-- `constructor(config: Partial<SequenceConfig> = {})`; `now` is the
initial `new Date()` stored in `lastActivityTime`. -/
def mkTracker (config : SequenceConfigOverride) (now : ℚ) : TrackerState :=
  { config := mkSequenceConfig config
    actionBuffer := []
    sequences := []
    contextSwitches := []
    currentContext := ""
    lastActivityTime := now
    focusSegments := []
    currentFocusSegment := none
    patternHistory := []
    sequenceIdCounter := 0 }

/-- The candidate context label determined by the `switch` at the top of
`detectContextSwitch`: `none` models the early `return` for keystroke and
code-edit actions. -/
def candidateContext (action : BehavioralAction) : Option String :=
  match action.type with
  | .fileSwitch => some (jsOrString action.metadata.fileName ("unknown_file"))
  | .contextSwitch => some (jsOrString action.metadata.toTarget ("unknown_context"))
  | .keystroke => none
  | .codeEdit => none
  | _ => some (jsOrString action.metadata.context ("default_context"))

/-- `private determineContextSwitchReason(action)`. -/
def determineContextSwitchReason (s : TrackerState) (action : BehavioralAction) : SwitchReason :=
  match action.type with
  | .fileSwitch => SwitchReason.fileSwitchR
  | .contextSwitch => action.metadata.reason.getD SwitchReason.manual
  | _ =>
      let timeSinceLastActivity := action.timestamp - s.lastActivityTime
      if s.config.focusLossThreshold < timeSinceLastActivity then SwitchReason.focusLoss
      else SwitchReason.manual

/-- `private startNewFocusSegment(timestamp, context)`. -/
def startNewFocusSegment (s : TrackerState) (timestamp : ℚ) (context : String) : TrackerState :=
  let seg : FocusSegment :=
    { startTime := timestamp, endTime := timestamp, duration := 0
      context := context, activityLevel := 0 }
  { s with currentFocusSegment := some seg }

/-- `private endCurrentFocusSegment(timestamp)`. -/
def endCurrentFocusSegment (s : TrackerState) (timestamp : ℚ) : TrackerState :=
  match s.currentFocusSegment with
  | none => s
  | some seg =>
      let seg1 := { seg with endTime := timestamp, duration := timestamp - seg.startTime }
      { s with focusSegments := s.focusSegments ++ [seg1], currentFocusSegment := none }

/-- `detectContextSwitch(action)`: establish the context on the first
context-bearing action, record a `ContextSwitch` (with capped history) when
the candidate label differs from the current one. -/
def detectContextSwitch (s : TrackerState) (action : BehavioralAction) : TrackerState :=
  match candidateContext action with
  | none => s
  | some newContext =>
      if s.currentContext = "" then
        startNewFocusSegment { s with currentContext := newContext } action.timestamp newContext
      else if newContext ≠ s.currentContext then
        let contextSwitch : ContextSwitch :=
          { timestamp := action.timestamp
            fromContext := s.currentContext
            toContext := newContext
            duration := action.duration
            reason := determineContextSwitchReason s action }
        let s1 :=
          { s with contextSwitches := jsCapPush maxContextSwitches s.contextSwitches contextSwitch }
        let s2 := endCurrentFocusSegment s1 action.timestamp
        startNewFocusSegment { s2 with currentContext := newContext } action.timestamp newContext
      else s

/-- `private calculateActivityLevel()`: actions per second over the last 10
buffered actions. -/
def calculateActivityLevel (s : TrackerState) : ℚ :=
  let recentActions := jsSliceFrom s.actionBuffer (-10)
  let timeSpan : ℚ :=
    if 1 < recentActions.length then
      match recentActions.getLast?, recentActions.head? with
      | some lastAct, some firstAct => lastAct.timestamp - firstAct.timestamp
      | _, _ => 1
    else 1
  if 0 < timeSpan then (recentActions.length : ℚ) / (timeSpan / 1000) else 0

/-- `private updateFocusTracking(action)`: extend the open focus segment;
close it on focus loss. -/
def updateFocusTracking (s : TrackerState) (action : BehavioralAction) : TrackerState :=
  let now := action.timestamp
  match s.currentFocusSegment with
  | none => s
  | some seg =>
      let seg1 :=
        { seg with endTime := now, duration := now - seg.startTime
                   activityLevel := calculateActivityLevel s }
      let s1 := { s with currentFocusSegment := some seg1 }
      let timeSinceLastActivity := now - s.lastActivityTime
      if s1.config.focusLossThreshold < timeSinceLastActivity then
        endCurrentFocusSegment s1 now
      else s1

/-- `private findActionTypePattern(actionTypes)`: substring tests on the
comma-joined action-kind names. -/
def findActionTypePattern (actionTypes : List ActionType) : Option String :=
  let typeSequence := String.intercalate (",") (actionTypes.map actionTypeName)
  if jsIncludes typeSequence ("keystroke,keystroke,keystroke") then some ("continuous_typing")
  else if jsIncludes typeSequence ("context_switch,keystroke") then some ("switch_and_type")
  else if jsIncludes typeSequence ("file_switch,code_edit") then some ("file_navigation")
  else none

/-- The inter-action interval list built by `findTimingPattern` and
`calculateTypingRhythm` (`for (i = 1; i < n; i++) intervals.push(ts[i] - ts[i-1])`). -/
def adjacentIntervals : List ℚ → List ℚ
  | [] => []
  | [_] => []
  | a :: b :: rest => (b - a) :: adjacentIntervals (b :: rest)

/-- `private findTimingPattern(actions)`. -/
def findTimingPattern (actions : List BehavioralAction) : Option String :=
  if actions.length < 3 then none
  else
    let intervals := adjacentIntervals (actions.map (fun a => a.timestamp))
    let avgInterval : ℚ := intervals.sum / intervals.length
    if avgInterval < 200 then some ("rapid_sequence")
    else if 2000 < avgInterval then some ("deliberate_sequence")
    else some ("normal_sequence")

/-- `private findContextPattern(actions)`: diversity of the declared
(truthy) context metadata values; `Set` size is the number of distinct
values. -/
def findContextPattern (actions : List BehavioralAction) : Option String :=
  let contexts := (actions.filter (fun a => jsTruthyStr a.metadata.context)).map
    (fun a => a.metadata.context.getD (""))
  let uniqueSize := contexts.dedup.length
  if uniqueSize = 1 then some ("single_context")
  else if (actions.length : ℚ) / 2 < (uniqueSize : ℚ) then some ("context_heavy")
  else some ("mixed_context")

/-- `private extractSequencePatterns(actions)`. -/
def extractSequencePatterns (actions : List BehavioralAction) : List String :=
  (findActionTypePattern (actions.map (fun a => a.type))).toList ++
    (findTimingPattern actions).toList ++ (findContextPattern actions).toList

/-- `private createContextSnapshot()`: note the JS `||` on
`focusSegments[0]?.startTime.getTime()`, which also treats a 0 timestamp as
absent. -/
def createContextSnapshot (clk : Clock) (s : TrackerState) : ContextSnapshot :=
  { fileType := jsOrString ((s.currentContext.split (fun c => c = '.')).getLast?) "unknown"
    projectContext := s.currentContext
    timeOfDay := clk.hours
    sessionDuration := clk.now -
      (match s.focusSegments.head? with
       | some seg => if seg.startTime = 0 then clk.now else seg.startTime
       | none => clk.now) }

/-- `private completeCurrentSequence()`: finalize the buffered actions into
an `ActionSequence` (capped history) and clear the buffer. -/
def completeCurrentSequence (clk : Clock) (s : TrackerState) : TrackerState :=
  if s.actionBuffer.length = 0 then s
  else
    let counter1 := s.sequenceIdCounter + 1
    let sequence : ActionSequence :=
      { id := "seq_" ++ natStr 10 counter1
        actions := s.actionBuffer
        startTime := ((s.actionBuffer.head?).map (fun a => a.timestamp)).getD 0
        endTime := ((s.actionBuffer.getLast?).map (fun a => a.timestamp)).getD 0
        context := createContextSnapshot clk s
        patterns := extractSequencePatterns s.actionBuffer }
    { s with sequences := jsCapPush maxSequences s.sequences sequence
             actionBuffer := []
             sequenceIdCounter := counter1 }

/-- `private checkSequenceCompletion()`: complete the sequence when the
buffer reaches the configured capacity. -/
def checkSequenceCompletion (clk : Clock) (s : TrackerState) : TrackerState :=
  if s.config.bufferSize ≤ (s.actionBuffer.length : ℚ) then completeCurrentSequence clk s
  else s

/-- `recordAction(action)`: append to the capped buffer, update the last
activity time, run context-switch detection, focus tracking and sequence
completion. -/
def recordAction (clk : Clock) (s : TrackerState) (action : BehavioralAction) : TrackerState :=
  let buffer1 := s.actionBuffer ++ [action]
  let buffer2 := if s.config.bufferSize < (buffer1.length : ℚ) then buffer1.tail else buffer1
  let s1 := { s with actionBuffer := buffer2, lastActivityTime := action.timestamp }
  let s2 := detectContextSwitch s1 action
  let s3 := updateFocusTracking s2 action
  checkSequenceCompletion clk s3

/-- `private calculateTypingRhythm(sequence)`: mean inter-keystroke interval
within a sequence. -/
def calculateTypingRhythm (sequence : ActionSequence) : ℚ :=
  let keystrokeActions := sequence.actions.filter
    (fun a => decide (a.type = ActionType.keystroke))
  if keystrokeActions.length < 2 then 0
  else
    let intervals := adjacentIntervals (keystrokeActions.map (fun a => a.timestamp))
    intervals.sum / intervals.length

/-- `private calculateContextSwitchingRate(sequence)`: switches per minute. -/
def calculateContextSwitchingRate (sequence : ActionSequence) : ℚ :=
  let contextSwitches := sequence.actions.filter
    (fun a => decide (a.type = ActionType.contextSwitch))
  let duration := sequence.endTime - sequence.startTime
  if 0 < duration then ((contextSwitches.length : ℚ) / duration) * 60000 else 0

/-- `private extractPatternMetric(sequence, patternType)`. -/
def extractPatternMetric (patternType : String) (sequence : ActionSequence) : ℚ :=
  if patternType = "typing_rhythm" then calculateTypingRhythm sequence
  else if patternType = "context_switching" then calculateContextSwitchingRate sequence
  else if patternType = "focus_duration" then sequence.endTime - sequence.startTime
  else 0

/-- `private performTTest(group1, group2)`: pooled-variance two-sample
t-statistic; `sq` is the `Math.sqrt` oracle. -/
def performTTest (sq : ℚ → ℚ) (group1 group2 : List ℚ) : ℚ :=
  let mean1 : ℚ := group1.sum / group1.length
  let mean2 : ℚ := group2.sum / group2.length
  let var1 : ℚ := (group1.map (fun val => (val - mean1) ^ 2)).sum / ((group1.length : ℚ) - 1)
  let var2 : ℚ := (group2.map (fun val => (val - mean2) ^ 2)).sum / ((group2.length : ℚ) - 1)
  let pooledVar : ℚ :=
    (((group1.length : ℚ) - 1) * var1 + ((group2.length : ℚ) - 1) * var2) /
      ((group1.length : ℚ) + (group2.length : ℚ) - 2)
  let standardError := sq (pooledVar * (1 / (group1.length : ℚ) + 1 / (group2.length : ℚ)))
  if 0 < standardError then (mean1 - mean2) / standardError else 0

/-- `private calculatePValue(tStat, degreesOfFreedom)`: fixed z-like
cutoffs (the degrees of freedom are ignored by the source as well). -/
def calculatePValue (tStat : ℚ) (_degreesOfFreedom : ℚ) : ℚ :=
  let absTStat := |tStat|
  if 2576 / 1000 < absTStat then 1 / 100
  else if 196 / 100 < absTStat then 5 / 100
  else if 1645 / 1000 < absTStat then 1 / 10
  else 1 / 2

/-- `private determineChangeType(firstHalf, secondHalf)`.  When `mean1 = 0`
the source divides by zero (JS `Infinity`/`NaN`); in `ℚ` the quotient is 0.
No theorem below depends on this function's value. -/
def determineChangeType (firstHalf secondHalf : List ℚ) : ChangeType :=
  let mean1 : ℚ := firstHalf.sum / firstHalf.length
  let mean2 : ℚ := secondHalf.sum / secondHalf.length
  let percentChange := |(mean2 - mean1) / mean1|
  if 1 / 2 < percentChange then ChangeType.sudden
  else if 2 / 10 < percentChange then ChangeType.gradual
  else ChangeType.cyclical

/-- `private detectPatternChange(patternType, sequences)`. -/
def detectPatternChange (sq : ℚ → ℚ) (clk : Clock) (threshold : ℚ) (patternType : String)
    (sequences : List ActionSequence) : Option PatternChangeEvent :=
  let metrics := sequences.map (extractPatternMetric patternType)
  if metrics.length < 5 then none
  else
    let firstHalf := jsSlice metrics 0 (metrics.length / 2)
    let secondHalf := jsSliceFrom metrics (metrics.length / 2)
    let tStat := performTTest sq firstHalf secondHalf
    let pValue := calculatePValue tStat ((metrics.length : ℚ) - 2)
    if pValue < threshold then
      some
        { timestamp := clk.now
          previousPattern := patternType ++ "_old"
          newPattern := patternType ++ "_new"
          confidence := 1 - pValue
          changeType := determineChangeType firstHalf secondHalf
          statisticalSignificance := pValue }
    else none

/-- The fixed pattern families scanned by `detectPatternChanges()`. -/
def patternTypes : List String :=
  ["typing_rhythm", "context_switching", "focus_duration"]

/-- `detectPatternChanges()`: analyze the last 10 sequences; with fewer than
5 return no events; otherwise collect the per-family change events (the
source's accumulating `for` loop is a `filterMap` over the three families). -/
def detectPatternChanges (sq : ℚ → ℚ) (clk : Clock) (s : TrackerState) :
    List PatternChangeEvent :=
  let recentSequences := jsSliceFrom s.sequences (-10)
  if recentSequences.length < 5 then []
  else
    patternTypes.filterMap
      (fun patternType =>
        detectPatternChange sq clk s.config.patternChangeThreshold patternType recentSequences)

/-- Insertion-ordered `Map<string, number>` increment
(`reasonCounts.set(k, (reasonCounts.get(k) || 0) + 1)`). -/
def bumpCount : List (String × Nat) → String → List (String × Nat)
  | [], k => [(k, 1)]
  | (k0, n) :: rest, k =>
      if k0 = k then (k0, n + 1) :: rest else (k0, n) :: bumpCount rest k

/-- Insertion-ordered `Set<string>` insertion. -/
def addUnique (l : List String) (x : String) : List String :=
  if x ∈ l then l else l ++ [x]

/-- The record returned by `getContextSwitchStatistics()`. -/
structure ContextSwitchStatistics : Type where
  totalSwitches : Nat
  averageSwitchDuration : ℚ
  mostFrequentReason : String
  switchesPerHour : ℚ
  contexts : List String
deriving DecidableEq, Repr

/-- `getContextSwitchStatistics()`. -/
def getContextSwitchStatistics (s : TrackerState) : ContextSwitchStatistics :=
  if s.contextSwitches.length = 0 then
    { totalSwitches := 0, averageSwitchDuration := 0, mostFrequentReason := "none"
      switchesPerHour := 0, contexts := [] }
  else
    let totalSwitches := s.contextSwitches.length
    let averageSwitchDuration : ℚ :=
      (s.contextSwitches.map (fun cs => cs.duration)).sum / (totalSwitches : ℚ)
    let reasonCounts := s.contextSwitches.foldl
      (fun counts cs => bumpCount counts (switchReasonName cs.reason)) []
    let contexts := s.contextSwitches.foldl
      (fun ctxs cs => addUnique (addUnique ctxs cs.fromContext) cs.toContext) []
    let mostFrequentReason :=
      (reasonCounts.foldl (fun best e => if best.2 < e.2 then e else best) ("none", 0)).1
    let timeSpan : ℚ :=
      if 1 < s.contextSwitches.length then
        match s.contextSwitches.getLast?, s.contextSwitches.head? with
        | some lastSwitch, some firstSwitch => lastSwitch.timestamp - firstSwitch.timestamp
        | _, _ => 0
      else 0
    let hours := timeSpan / (1000 * 60 * 60)
    let switchesPerHour := if 0 < hours then (totalSwitches : ℚ) / hours else 0
    { totalSwitches := totalSwitches
      averageSwitchDuration := averageSwitchDuration
      mostFrequentReason := mostFrequentReason
      switchesPerHour := switchesPerHour
      contexts := contexts }

/-- `private countInterruptions(segments)`. -/
def countInterruptions (segments : List FocusSegment) : Nat :=
  if segments.length = 0 then 0
  else
    let averageDuration : ℚ := (segments.map (fun seg => seg.duration)).sum / segments.length
    (segments.filter (fun seg => decide (seg.duration < averageDuration / 2))).length

/-- `private getDefaultFocusPattern(sessionId)`. -/
def getDefaultFocusPattern (sessionId : String) : FocusPattern :=
  { sessionId := sessionId, focusSegments := [], totalFocusTime := 0
    averageFocusSegment := 0, interruptionCount := 0 }

/-- `analyzeFocusPatterns(sessionId)`. -/
def analyzeFocusPatterns (s : TrackerState) (sessionId : String) : FocusPattern :=
  let sessionSegments := s.focusSegments.filter
    (fun segment => jsIncludes segment.context sessionId || decide (sessionId = "all"))
  if sessionSegments.length = 0 then getDefaultFocusPattern sessionId
  else
    let totalFocusTime := (sessionSegments.map (fun seg => seg.duration)).sum
    { sessionId := sessionId
      focusSegments := sessionSegments
      totalFocusTime := totalFocusTime
      averageFocusSegment := totalFocusTime / sessionSegments.length
      interruptionCount := countInterruptions sessionSegments }

/-! ## Spec-side notions and concrete sample data for witnesses -/

/-- The last `n` entries of a list — the spec-side description of a FIFO
ring buffer's contents after the whole stream has been pushed through it. -/
def lastN {α : Type} (n : Nat) (l : List α) : List α :=
  l.drop (l.length - n)

/-- All four fields of a `SequenceConfig` are strictly positive. -/
def ConfigPos (c : SequenceConfig) : Prop :=
  0 < c.bufferSize ∧ 0 < c.contextSwitchThreshold ∧
    0 < c.focusLossThreshold ∧ 0 < c.patternChangeThreshold

/-- Every value supplied by a partial override is nonnegative (a supplied
`0` is falsy for `||`, hence harmless at construction). -/
def OverrideNonneg (o : SequenceConfigOverride) : Prop :=
  (∀ x ∈ o.bufferSize, 0 ≤ x) ∧ (∀ x ∈ o.contextSwitchThreshold, 0 ≤ x) ∧
    (∀ x ∈ o.focusLossThreshold, 0 ≤ x) ∧ (∀ x ∈ o.patternChangeThreshold, 0 ≤ x)

/-- Every value supplied by a partial override is strictly positive. -/
def OverridePos (o : SequenceConfigOverride) : Prop :=
  (∀ x ∈ o.bufferSize, 0 < x) ∧ (∀ x ∈ o.contextSwitchThreshold, 0 < x) ∧
    (∀ x ∈ o.focusLossThreshold, 0 < x) ∧ (∀ x ∈ o.patternChangeThreshold, 0 < x)

/-- A history entry with typing speed 1, decision time 1 and a pause
histogram summing to `pp`. -/
def sampleTemporal (pp : ℚ) : TemporalMetrics :=
  { timestamp := 0
    sessionId := "s"
    duration := 0
    metrics :=
      { typingSpeed := 1, pausePatterns := [pp, 0, 0], decisionTime := 1
        contextSwitches := 0, fatigueLevel := 0 } }

/-- A metrics history of 20 entries whose earlier window has average pause
frequency 1 and whose recent window has average pause frequency 10 (a
tenfold pause surge at constant typing speed and decision time). -/
def surgeHistory : List TemporalMetrics :=
  List.replicate 10 (sampleTemporal 1) ++ List.replicate 10 (sampleTemporal 10)

/-- An explicit context-switch action targeting the label `lbl`. -/
def contextSwitchAction (lbl : String) (ts : ℚ) : BehavioralAction :=
  { type := ActionType.contextSwitch, timestamp := ts, duration := 100
    metadata := { toTarget := some lbl } }

/-- A keystroke action carrying a hashed-key token. -/
def keystrokeAction (ts : ℚ) : BehavioralAction :=
  { type := ActionType.keystroke, timestamp := ts, duration := 0
    metadata := { hashedKey := some ("key_1") } }

/-- A fixed clock for concrete evaluations. -/
def clock0 : Clock := { now := 0, hours := 0 }

/-- An analyzer state holding the spec's five sample inter-keystroke
intervals. -/
def sampleAnalyzer : AnalyzerState :=
  { keyEvents := [], timingBuffer := [200, 180, 220, 190, 210] }

/-- An engine state in session `generateSessionId 1 2` with one history
entry tagged with that session. -/
def sampleEngine : EngineState :=
  { keystrokeAnalyzer := initAnalyzer
    patternStorage :=
      { userId := "user", patterns := [("p", [sampleTemporal 1])]
        currentSession := generateSessionId 1 2, sessionStartTime := 0 }
    metricsHistory := [{ sampleTemporal 1 with sessionId := generateSessionId 1 2 }] }

/-! ## Theorems -/

/-- **C9**: `detectFatigue()` returns the all-zero `FatigueIndicators` for
any history of at most 10 entries (so also at exactly 10, not only below
10): a non-zero indicator needs at least 11 entries, because with 11 or
more the comparison window immediately preceding the most recent 10
entries is non-empty. -/
theorem detectFatigue_min_history :
    (∀ (sq : ℚ → ℚ) (history : List TemporalMetrics), history.length ≤ 10 →
      detectFatigue sq history = getDefaultFatigueIndicators) ∧
    (∀ (history : List TemporalMetrics), 11 ≤ history.length →
      (jsSlice history (max 0 ((history.length : Int) - 20)) (-10)).length ≠ 0) := by
  constructor
  · intro sq history hlen
    by_cases h : history.length < fatigueWindowSize
    · simp [detectFatigue, h]
    · have h10 : history.length = 10 := by
        simp only [fatigueWindowSize] at h
        omega
      have hempty :
          (jsSlice history (max 0 ((history.length : Int) - (fatigueWindowSize : Nat) * 2))
            (-(fatigueWindowSize : Int))).length = 0 := by
        simp [jsSlice, h10, fatigueWindowSize]
      simp only [detectFatigue, h, if_false]
      rw [if_pos]
      exact hempty
  · intro history hlen
    have : (jsSlice history (max 0 ((history.length : Int) - 20)) (-10)).length =
        min (history.length - 10) history.length - (max 0 ((history.length : Int) - 20)).toNat := by
      simp [jsSlice, List.length_drop, List.length_take]
      omega
    rw [this]
    omega

/-- **C9 witness**: at a concrete history of exactly 10 entries, the fatigue
indicators are the all-zero record. -/
theorem detectFatigue_min_history_witness :
    (List.replicate 10 (sampleTemporal 1)).length ≤ 10 ∧
      detectFatigue mathSqrtModel (List.replicate 10 (sampleTemporal 1)) =
        getDefaultFatigueIndicators :=
  ⟨by simp, detectFatigue_min_history.1 mathSqrtModel _ (by simp)⟩

/-- **C3**: `extractTimingPatterns()` returns the all-zero `TimingPattern`
when fewer than 2 intervals are buffered; otherwise `averageInterval` is
the mean and `variance` the population variance of the buffered intervals,
`rhythm` is the sequence of 5-wide moving averages (length `len - 4`,
empty when fewer than 5 intervals), `pauseCount` counts intervals strictly
greater than 1000 ms and `burstCount` intervals strictly below 100 ms. -/
theorem extractTimingPatterns_spec :
    ∀ s : AnalyzerState,
      (s.timingBuffer.length < 2 →
        extractTimingPatterns s =
          { averageInterval := 0, variance := 0, rhythm := [], pauseCount := 0
            burstCount := 0 }) ∧
      (2 ≤ s.timingBuffer.length →
        (extractTimingPatterns s).averageInterval =
            s.timingBuffer.sum / s.timingBuffer.length ∧
          (extractTimingPatterns s).variance =
            (s.timingBuffer.map
              (fun v => (v - s.timingBuffer.sum / s.timingBuffer.length) ^ 2)).sum /
              s.timingBuffer.length ∧
          (extractTimingPatterns s).rhythm.length = s.timingBuffer.length - 4 ∧
          (∀ i : Nat, i < (extractTimingPatterns s).rhythm.length →
            (extractTimingPatterns s).rhythm[i]? =
              some (((s.timingBuffer.drop i).take 5).sum / 5)) ∧
          (extractTimingPatterns s).pauseCount =
            (s.timingBuffer.filter (fun x => decide ((1000 : ℚ) < x))).length ∧
          (extractTimingPatterns s).burstCount =
            (s.timingBuffer.filter (fun x => decide (x < (100 : ℚ)))).length) := by
  intro s
  constructor
  · intro h
    simp [extractTimingPatterns, h, getDefaultPattern]
  · intro h
    have h2 : ¬ s.timingBuffer.length < 2 := not_lt.mpr h
    refine ⟨?_, ?_, ?_, ?_, ?_, ?_⟩
    · simp [extractTimingPatterns, h2, calculateMean]
    · simp [extractTimingPatterns, h2, calculateVariance, calculateMean]
    · simp only [extractTimingPatterns, h2, if_false, calculateRhythm, List.length_map,
        List.length_range]
      omega
    · intro i hi
      simp only [extractTimingPatterns, h2, if_false, calculateRhythm, List.length_map,
        List.length_range] at hi
      have hwin : ((s.timingBuffer.drop i).take 5).length = 5 := by
        simp [List.length_take, List.length_drop]
        omega
      simp only [extractTimingPatterns, h2, if_false, calculateRhythm]
      rw [List.getElem?_map, List.getElem?_range hi]
      unfold calculateMean
      simp only [Option.map_some']
      rw [hwin]
      norm_num
    · simp [extractTimingPatterns, h2, countPauses, pauseThreshold]
    · simp [extractTimingPatterns, h2, countBursts, burstThreshold]

/-- **C3 witness**: on the spec's sample intervals
`[200, 180, 220, 190, 210]` the extracted pattern has the stated shape
(in particular mean 200 and positive population variance 200). -/
theorem extractTimingPatterns_spec_witness :
    2 ≤ sampleAnalyzer.timingBuffer.length ∧
      ((extractTimingPatterns sampleAnalyzer).averageInterval =
          sampleAnalyzer.timingBuffer.sum / sampleAnalyzer.timingBuffer.length ∧
        (extractTimingPatterns sampleAnalyzer).variance =
          (sampleAnalyzer.timingBuffer.map
            (fun v =>
              (v - sampleAnalyzer.timingBuffer.sum / sampleAnalyzer.timingBuffer.length) ^ 2)).sum /
            sampleAnalyzer.timingBuffer.length ∧
        (extractTimingPatterns sampleAnalyzer).rhythm.length =
          sampleAnalyzer.timingBuffer.length - 4 ∧
        (∀ i : Nat, i < (extractTimingPatterns sampleAnalyzer).rhythm.length →
          (extractTimingPatterns sampleAnalyzer).rhythm[i]? =
            some (((sampleAnalyzer.timingBuffer.drop i).take 5).sum / 5)) ∧
        (extractTimingPatterns sampleAnalyzer).pauseCount =
          (sampleAnalyzer.timingBuffer.filter (fun x => decide ((1000 : ℚ) < x))).length ∧
        (extractTimingPatterns sampleAnalyzer).burstCount =
          (sampleAnalyzer.timingBuffer.filter (fun x => decide (x < (100 : ℚ)))).length) :=
  ⟨by decide, (extractTimingPatterns_spec sampleAnalyzer).2 (by decide)⟩

/-- Each fatigue delta is clamped below by 0 (`Math.max(0, …)`), so the
overall score — their mean — is nonnegative for every history and every
square-root oracle. -/
theorem detectFatigue_score_nonneg (sq : ℚ → ℚ) (history : List TemporalMetrics) :
    0 ≤ (detectFatigue sq history).overallFatigueScore := by
  have hite : ∀ (c : Prop) (_ : Decidable c) (x : ℚ), (0 : ℚ) ≤ if c then max 0 x else 0 := by
    intro c inst x
    split
    · exact le_max_left 0 x
    · exact le_refl 0
  simp only [detectFatigue]
  split
  · simp [getDefaultFatigueIndicators]
  · split
    · simp [getDefaultFatigueIndicators]
    · refine div_nonneg ?_ (by norm_num)
      exact add_nonneg (add_nonneg (hite _ _ _) (hite _ _ _)) (hite _ _ _)

/-- **C1 (amended)**: the claimed interval `[0,1]` does not hold (see the
counterexample); what holds is the lower bound: for every finite history
and every square-root oracle, `detectFatigue()` returns an
`overallFatigueScore ≥ 0`, and the `fatigueLevel` computed by
`calculateMetrics()` equals that score for the engine's own history, hence
is also ≥ 0.  The score is unbounded above because the pause-frequency and
rhythm-inconsistency ratios are not clamped at 1. -/
theorem fatigue_scores_nonneg :
    ∀ (sq : ℚ → ℚ) (history : List TemporalMetrics) (t r : Nat) (now : ℚ)
      (s : EngineState) (actions : List BehavioralAction),
      0 ≤ (detectFatigue sq history).overallFatigueScore ∧
        (calculateMetrics sq t r now s actions).1.fatigueLevel =
          (detectFatigue sq s.metricsHistory).overallFatigueScore ∧
        0 ≤ (calculateMetrics sq t r now s actions).1.fatigueLevel := by
  intro sq history t r now s actions
  refine ⟨detectFatigue_score_nonneg sq history, rfl, ?_⟩
  exact detectFatigue_score_nonneg sq s.metricsHistory

/-- **C1 counterexample**: on the concrete 20-entry history `surgeHistory`
(constant typing speed and decision time, pause frequency rising from 1 to
10), `overallFatigueScore` is exactly 3, violating the claimed upper bound
1.  The square-root oracle is only evaluated at 0 — the variance of the
constant decision times — where `mathSqrtModel` agrees with `Math.sqrt`. -/
theorem fatigue_score_exceeds_one :
    (detectFatigue mathSqrtModel surgeHistory).overallFatigueScore = 3 ∧
      ¬ (detectFatigue mathSqrtModel surgeHistory).overallFatigueScore ≤ 1 := by
  have hlen : surgeHistory.length = 20 := by simp [surgeHistory]
  have hrec : jsSliceFrom surgeHistory (-10) = List.replicate 10 (sampleTemporal 10) := by
    simp [surgeHistory, jsSliceFrom, jsSlice, List.drop_append]
  have hear : jsSlice surgeHistory 0 (-10) = List.replicate 10 (sampleTemporal 1) := by
    simp [surgeHistory, jsSlice, List.take_append]
  have havg : ∀ c : ℚ, calculateAverageTypingSpeed (List.replicate 10 (sampleTemporal c)) = 1 := by
    intro c
    norm_num [calculateAverageTypingSpeed, sampleTemporal, List.sum_replicate]
  have hpause : ∀ c : ℚ,
      calculateAveragePauseFrequency (List.replicate 10 (sampleTemporal c)) = c := by
    intro c
    norm_num [calculateAveragePauseFrequency, sampleTemporal, List.sum_replicate]
  have hrc : ∀ c : ℚ,
      calculateAverageRhythmConsistency mathSqrtModel (List.replicate 10 (sampleTemporal c)) = 1 := by
    intro c
    norm_num [calculateAverageRhythmConsistency, sampleTemporal, List.sum_replicate,
      mathSqrtModel]
  have h3 : (detectFatigue mathSqrtModel surgeHistory).overallFatigueScore = 3 := by
    simp only [detectFatigue, hlen, fatigueWindowSize]
    norm_num [hrec, hear, havg, hpause, hrc, max_def]
  exact ⟨h3, by rw [h3]; norm_num⟩

/-- `toInt32` lands in the 32-bit signed range. -/
theorem toInt32_bounds (x : Int) : -(2 ^ 31) ≤ toInt32 x ∧ toInt32 x < 2 ^ 31 := by
  unfold toInt32
  have h1 : 0 ≤ (x + 2 ^ 31) % 2 ^ 32 := Int.emod_nonneg _ (by norm_num)
  have h2 : (x + 2 ^ 31) % 2 ^ 32 < 2 ^ 32 := Int.emod_lt_of_pos _ (by norm_num)
  omega

/-- The rolling hash accumulator stays in the 32-bit signed range, so its
absolute value is at most `2^31`. -/
theorem hashKeyNat_le (key : String) : hashKeyNat key ≤ 2 ^ 31 := by
  have main : ∀ (l : List Char) (h : Int), -(2 ^ 31) ≤ h → h < 2 ^ 31 →
      -(2 ^ 31) ≤ l.foldl (fun acc c => hashKeyStep acc c.toNat) h ∧
        l.foldl (fun acc c => hashKeyStep acc c.toNat) h < 2 ^ 31 := by
    intro l
    induction l with
    | nil => intro h h1 h2; exact ⟨h1, h2⟩
    | cons c rest ih =>
        intro h _ _
        have hb := toInt32_bounds (toInt32 (h * 32) - h + c.toNat)
        exact ih (hashKeyStep h c.toNat) hb.1 hb.2
  have hb := main key.data 0 (by norm_num) (by norm_num)
  unfold hashKeyNat
  omega

/-- **C6 (amended)**: `hashKey` is a total, deterministic pure function of
the raw key — identical inputs always yield the identical token — and the
token is the tag `key_` followed by the decimal rendering of the absolute
32-bit hash (at most `2^31`).  The original non-substring condition is
refuted by the counterexample: the token can contain the raw key. -/
theorem hashKey_deterministic :
    ∀ k1 k2 : String, k1 = k2 →
      hashKey k1 = hashKey k2 ∧
        hashKey k1 = "key_" ++ natStr 10 (hashKeyNat k1) ∧ hashKeyNat k1 ≤ 2 ^ 31 := by
  intro k1 k2 h
  exact ⟨by rw [h], rfl, hashKeyNat_le k1⟩

/-- **C6 witness**: the amended theorem applied at the concrete key `"a"`. -/
theorem hashKey_deterministic_witness :
    "a" = "a" ∧
      (hashKey ("a") = hashKey ("a") ∧
        hashKey ("a") = "key_" ++ natStr 10 (hashKeyNat ("a")) ∧ hashKeyNat ("a") ≤ 2 ^ 31) :=
  ⟨rfl, hashKey_deterministic ("a") "a" rfl⟩

/-- **C6 counterexample**: the ordinary keyboard key `"k"` hashes to the
token `"key_107"`, and the raw key *does* appear in the token (as its first
character), refuting the claimed non-substring property. -/
theorem hashKey_contains_raw_key :
    hashKey ("k") = "key_107" ∧ "k".data <:+: (hashKey ("k")).data := by
  constructor
  · decide
  · decide

/-- The constructor's `field || default` merge produces a positive value
whenever the supplied value is nonnegative (zero is falsy and falls back)
and the default is positive. -/
theorem jsOrNum_pos (o : Option ℚ) (d : ℚ) (ho : ∀ x ∈ o, 0 ≤ x) (hd : 0 < d) :
    0 < jsOrNum o d := by
  cases o with
  | none => simpa [jsOrNum] using hd
  | some x =>
      have hx := ho x rfl
      by_cases h0 : x = 0
      · simpa [jsOrNum, h0] using hd
      · simpa [jsOrNum, h0] using lt_of_le_of_ne hx (Ne.symm h0)

/-- The spread merge keeps positivity when the supplied value is positive. -/
theorem getD_pos (o : Option ℚ) (d : ℚ) (ho : ∀ x ∈ o, 0 < x) (hd : 0 < d) :
    0 < o.getD d := by
  cases o with
  | none => simpa using hd
  | some x => simpa using ho x rfl

/-- **C7 (amended)**: "all four fields always positive" fails — a negative
override value survives both the constructor's `||` merge and
`updateConfig`'s spread (see counterexample).  What holds: fields absent
from the override keep their default (constructor) or previous
(`updateConfig`) values, a supplied `0` falls back to the default at
construction, and positivity is preserved — construction from a
nonnegative-valued override yields all-positive fields, and updating an
all-positive config with a positive-valued override keeps every field
positive. -/
theorem sequenceConfig_merge_spec :
    ∀ (c p : SequenceConfigOverride) (base : SequenceConfig),
      (OverrideNonneg c → ConfigPos (mkSequenceConfig c)) ∧
      (ConfigPos base → OverridePos p → ConfigPos (updateConfig base p)) ∧
      (c.bufferSize = none → (mkSequenceConfig c).bufferSize = 50) ∧
      (c.contextSwitchThreshold = none → (mkSequenceConfig c).contextSwitchThreshold = 2000) ∧
      (c.focusLossThreshold = none → (mkSequenceConfig c).focusLossThreshold = 30000) ∧
      (c.patternChangeThreshold = none →
        (mkSequenceConfig c).patternChangeThreshold = 5 / 100) ∧
      (p.bufferSize = none → (updateConfig base p).bufferSize = base.bufferSize) ∧
      (p.contextSwitchThreshold = none →
        (updateConfig base p).contextSwitchThreshold = base.contextSwitchThreshold) ∧
      (p.focusLossThreshold = none →
        (updateConfig base p).focusLossThreshold = base.focusLossThreshold) ∧
      (p.patternChangeThreshold = none →
        (updateConfig base p).patternChangeThreshold = base.patternChangeThreshold) := by
  intro c p base
  refine ⟨?_, ?_, ?_, ?_, ?_, ?_, ?_, ?_, ?_, ?_⟩
  · rintro ⟨h1, h2, h3, h4⟩
    exact ⟨jsOrNum_pos _ _ h1 (by norm_num), jsOrNum_pos _ _ h2 (by norm_num),
      jsOrNum_pos _ _ h3 (by norm_num), jsOrNum_pos _ _ h4 (by norm_num)⟩
  · rintro ⟨b1, b2, b3, b4⟩ ⟨h1, h2, h3, h4⟩
    exact ⟨getD_pos _ _ h1 b1, getD_pos _ _ h2 b2, getD_pos _ _ h3 b3, getD_pos _ _ h4 b4⟩
  · intro h; simp [mkSequenceConfig, jsOrNum, h]
  · intro h; simp [mkSequenceConfig, jsOrNum, h]
  · intro h; simp [mkSequenceConfig, jsOrNum, h]
  · intro h; simp [mkSequenceConfig, jsOrNum, h]
  · intro h; simp [updateConfig, h]
  · intro h; simp [updateConfig, h]
  · intro h; simp [updateConfig, h]
  · intro h; simp [updateConfig, h]

/-- **C7 witness**: the amended theorem applied to the empty override (all
defaults, all positive) and to an update supplying a positive buffer
size. -/
theorem sequenceConfig_merge_spec_witness :
    ConfigPos (mkSequenceConfig {}) ∧
      ConfigPos (updateConfig (mkSequenceConfig {}) { bufferSize := some 1 }) := by
  have h1 := (sequenceConfig_merge_spec {} { bufferSize := some 1 } (mkSequenceConfig {})).1
    (by simp [OverrideNonneg])
  have h2 := (sequenceConfig_merge_spec {} { bufferSize := some 1 } (mkSequenceConfig {})).2.1
    h1 (by simp [OverridePos])
  exact ⟨h1, h2⟩

/-- **C7 counterexample**: constructing the tracker with the override
`{ bufferSize: -3 }` leaves `bufferSize = -3`, which is not positive — the
claimed invariant fails for this partial override. -/
theorem mkSequenceConfig_negative_override :
    (mkSequenceConfig { bufferSize := some (-3) }).bufferSize = -3 ∧
      ¬ 0 < (mkSequenceConfig { bufferSize := some (-3) }).bufferSize := by
  constructor
  · simp [mkSequenceConfig, jsOrNum]
  · simp [mkSequenceConfig, jsOrNum]

/-- `calculatePValue` only ever returns one of the four fixed significance
levels. -/
theorem calculatePValue_mem (tStat dof : ℚ) :
    calculatePValue tStat dof = 1 / 100 ∨ calculatePValue tStat dof = 5 / 100 ∨
      calculatePValue tStat dof = 1 / 10 ∨ calculatePValue tStat dof = 1 / 2 := by
  unfold calculatePValue
  dsimp only
  split
  · left; rfl
  · split
    · right; left; rfl
    · split
      · right; right; left; rfl
      · right; right; right; rfl

/-- A `slice(-10)` keeps the last `min 10 len` entries. -/
theorem length_jsSliceFrom_neg10 {α : Type} (l : List α) :
    (jsSliceFrom l (-10)).length = min 10 l.length := by
  simp [jsSliceFrom, jsSlice]
  omega

/-- Inversion for `detectPatternChange`: an emitted event carries one of the
four fixed significance levels, strictly below the threshold, with
confidence its complement. -/
theorem detectPatternChange_some {sq : ℚ → ℚ} {clk : Clock} {th : ℚ} {pt : String}
    {seqs : List ActionSequence} {e : PatternChangeEvent}
    (h : detectPatternChange sq clk th pt seqs = some e) :
    (e.statisticalSignificance = 1 / 100 ∨ e.statisticalSignificance = 5 / 100 ∨
      e.statisticalSignificance = 1 / 10 ∨ e.statisticalSignificance = 1 / 2) ∧
      e.statisticalSignificance < th ∧ e.confidence = 1 - e.statisticalSignificance := by
  unfold detectPatternChange at h
  dsimp only at h
  split at h
  · exact absurd h (by simp)
  · split at h
    · rename_i hlt
      rw [Option.some_inj] at h
      subst h
      dsimp only
      exact ⟨calculatePValue_mem _ _, hlt, rfl⟩
    · exact absurd h (by simp)

/-- **C2**: `detectPatternChanges()` returns no event when fewer than 5
sequences exist among the most recent 10; every emitted event has
`statisticalSignificance` in `{0.01, 0.05, 0.10, 0.5}`, strictly below the
configured `patternChangeThreshold` (whose default is 0.05), and
`confidence = 1 - statisticalSignificance ∈ [0,1]`. -/
theorem detectPatternChanges_spec :
    ∀ (sq : ℚ → ℚ) (clk : Clock) (s : TrackerState),
      (s.sequences.length < 5 → detectPatternChanges sq clk s = []) ∧
      (∀ e ∈ detectPatternChanges sq clk s,
        (e.statisticalSignificance = 1 / 100 ∨ e.statisticalSignificance = 5 / 100 ∨
          e.statisticalSignificance = 1 / 10 ∨ e.statisticalSignificance = 1 / 2) ∧
          e.statisticalSignificance < s.config.patternChangeThreshold ∧
          e.confidence = 1 - e.statisticalSignificance ∧
          0 ≤ e.confidence ∧ e.confidence ≤ 1) ∧
      (mkSequenceConfig {}).patternChangeThreshold = 5 / 100 := by
  intro sq clk s
  refine ⟨?_, ?_, ?_⟩
  · intro h
    have hlt : (jsSliceFrom s.sequences (-10)).length < 5 := by
      rw [length_jsSliceFrom_neg10]
      omega
    simp [detectPatternChanges, hlt]
  · intro e he
    by_cases h5 : (jsSliceFrom s.sequences (-10)).length < 5
    · simp [detectPatternChanges, h5] at he
    · simp only [detectPatternChanges, h5, if_false, List.mem_filterMap] at he
      obtain ⟨pt, _, hdet⟩ := he
      obtain ⟨hmem, hlt, hconf⟩ := detectPatternChange_some hdet
      refine ⟨hmem, hlt, hconf, ?_, ?_⟩
      · rw [hconf]
        rcases hmem with h | h | h | h <;> rw [h] <;> norm_num
      · rw [hconf]
        rcases hmem with h | h | h | h <;> rw [h] <;> norm_num
  · simp [mkSequenceConfig, jsOrNum]

/-- **C2 witness**: a freshly constructed tracker has no sequences, so
`detectPatternChanges()` returns the empty list. -/
theorem detectPatternChanges_spec_witness :
    (mkTracker {} 0).sequences.length < 5 ∧
      detectPatternChanges mathSqrtModel clock0 (mkTracker {} 0) = [] :=
  ⟨by simp [mkTracker],
    (detectPatternChanges_spec mathSqrtModel clock0 (mkTracker {} 0)).1 (by simp [mkTracker])⟩

/-- Focus-segment bookkeeping does not touch the context-switch history or
the current context label. -/
theorem endCurrentFocusSegment_frame (s : TrackerState) (ts : ℚ) :
    (endCurrentFocusSegment s ts).contextSwitches = s.contextSwitches ∧
      (endCurrentFocusSegment s ts).currentContext = s.currentContext ∧
      (endCurrentFocusSegment s ts).actionBuffer = s.actionBuffer ∧
      (endCurrentFocusSegment s ts).sequences = s.sequences ∧
      (endCurrentFocusSegment s ts).config = s.config := by
  cases h : s.currentFocusSegment <;> simp [endCurrentFocusSegment, h]

/-- `updateFocusTracking` does not touch the context-switch history, the
current context label, the action buffer or the sequence history. -/
theorem updateFocusTracking_frame (s : TrackerState) (a : BehavioralAction) :
    (updateFocusTracking s a).contextSwitches = s.contextSwitches ∧
      (updateFocusTracking s a).currentContext = s.currentContext ∧
      (updateFocusTracking s a).actionBuffer = s.actionBuffer ∧
      (updateFocusTracking s a).sequences = s.sequences ∧
      (updateFocusTracking s a).config = s.config := by
  cases h : s.currentFocusSegment with
  | none => simp [updateFocusTracking, h]
  | some seg =>
      simp only [updateFocusTracking, h]
      split
      · exact ⟨(endCurrentFocusSegment_frame _ _).1, (endCurrentFocusSegment_frame _ _).2.1,
          (endCurrentFocusSegment_frame _ _).2.2.1, (endCurrentFocusSegment_frame _ _).2.2.2.1,
          (endCurrentFocusSegment_frame _ _).2.2.2.2⟩
      · simp

/-- Sequence completion does not touch the context-switch history or the
current context label. -/
theorem checkSequenceCompletion_frame (clk : Clock) (s : TrackerState) :
    (checkSequenceCompletion clk s).contextSwitches = s.contextSwitches ∧
      (checkSequenceCompletion clk s).currentContext = s.currentContext ∧
      (checkSequenceCompletion clk s).config = s.config := by
  unfold checkSequenceCompletion completeCurrentSequence
  split
  · split
    · simp
    · simp
  · simp

/-- The branch structure of `detectContextSwitch`, seen through the
context-switch history: a switch record is appended (with FIFO capping)
exactly when the action yields a candidate label, a context is already
established, and the candidate differs from it. -/
theorem detectContextSwitch_switches (s : TrackerState) (a : BehavioralAction) :
    (detectContextSwitch s a).contextSwitches =
      match candidateContext a with
      | none => s.contextSwitches
      | some c =>
          if s.currentContext = "" ∨ c = s.currentContext then s.contextSwitches
          else
            jsCapPush maxContextSwitches s.contextSwitches
              { timestamp := a.timestamp, fromContext := s.currentContext, toContext := c
                duration := a.duration, reason := determineContextSwitchReason s a } := by
  unfold detectContextSwitch
  cases hc : candidateContext a with
  | none => rfl
  | some c =>
      dsimp only
      by_cases h1 : s.currentContext = ""
      · simp [h1, startNewFocusSegment]
      · by_cases h2 : c = s.currentContext
        · simp [h1, h2, startNewFocusSegment]
        · have hne : c ≠ s.currentContext := h2
          simp only [h1, if_false, hne, ite_not, if_neg (by simp [h1, h2] : ¬(s.currentContext = "" ∨ c = s.currentContext))]
          simp [startNewFocusSegment, hne,
            (endCurrentFocusSegment_frame _ _).1]

/-- The current context after `detectContextSwitch`: established on the
first context-bearing action, replaced when the candidate differs. -/
theorem detectContextSwitch_currentContext (s : TrackerState) (a : BehavioralAction) :
    (detectContextSwitch s a).currentContext =
      match candidateContext a with
      | none => s.currentContext
      | some c =>
          if s.currentContext = "" then c
          else if c = s.currentContext then s.currentContext else c := by
  unfold detectContextSwitch
  cases hc : candidateContext a with
  | none => rfl
  | some c =>
      dsimp only
      by_cases h1 : s.currentContext = ""
      · simp [h1, startNewFocusSegment]
      · by_cases h2 : c = s.currentContext
        · simp [h1, h2, startNewFocusSegment]
        · simp [h1, h2, startNewFocusSegment, (endCurrentFocusSegment_frame _ _).2.1]

/-- `determineContextSwitchReason` reads only the config and the
last-activity time. -/
theorem determineContextSwitchReason_congr (s1 s2 : TrackerState) (a : BehavioralAction)
    (hc : s1.config = s2.config) (hl : s1.lastActivityTime = s2.lastActivityTime) :
    determineContextSwitchReason s1 a = determineContextSwitchReason s2 a := by
  unfold determineContextSwitchReason
  cases a.type <;> simp [hc, hl]

/-- The context-switch history after a full `recordAction` call: a switch is
recorded exactly when the action yields a candidate label, a context is
already established, and the candidate differs from it (the buffering,
focus-tracking and sequence-completion phases never record one). -/
theorem recordAction_switches (clk : Clock) (s : TrackerState) (a : BehavioralAction) :
    (recordAction clk s a).contextSwitches =
      match candidateContext a with
      | none => s.contextSwitches
      | some c =>
          if s.currentContext = "" ∨ c = s.currentContext then s.contextSwitches
          else
            jsCapPush maxContextSwitches s.contextSwitches
              { timestamp := a.timestamp, fromContext := s.currentContext, toContext := c
                duration := a.duration
                reason := determineContextSwitchReason
                  { s with lastActivityTime := a.timestamp } a } := by
  unfold recordAction
  dsimp only
  rw [(checkSequenceCompletion_frame _ _).1, (updateFocusTracking_frame _ _).1,
    detectContextSwitch_switches]
  cases hc : candidateContext a with
  | none => rfl
  | some c =>
      dsimp only
      split
      · rfl
      · congr 1

/-- The current context after a full `recordAction` call. -/
theorem recordAction_currentContext (clk : Clock) (s : TrackerState) (a : BehavioralAction) :
    (recordAction clk s a).currentContext =
      match candidateContext a with
      | none => s.currentContext
      | some c =>
          if s.currentContext = "" then c
          else if c = s.currentContext then s.currentContext else c := by
  unfold recordAction
  dsimp only
  rw [(checkSequenceCompletion_frame _ _).2.1, (updateFocusTracking_frame _ _).2.1,
    detectContextSwitch_currentContext]

/-- **C5**: the very first recorded action only establishes the initial
context (the fresh tracker records no switch, and its current context
becomes the action's candidate label); in general a `ContextSwitch` is
recorded by `recordAction` exactly when the action's candidate label
exists, a context is already established, and the label differs from it;
and the spec's example — three sequential context-establishing actions
with labels `file2`, `terminal`, `file1` — yields `totalSwitches = 2` in
`getContextSwitchStatistics()`. -/
theorem contextSwitch_recording_spec :
    ∀ (clk : Clock) (cfg : SequenceConfigOverride) (now0 : ℚ) (a : BehavioralAction)
      (s : TrackerState),
      (recordAction clk (mkTracker cfg now0) a).contextSwitches = [] ∧
      ((recordAction clk (mkTracker cfg now0) a).currentContext =
        (candidateContext a).getD ("")) ∧
      ((recordAction clk s a).contextSwitches =
        match candidateContext a with
        | none => s.contextSwitches
        | some c =>
            if s.currentContext = "" ∨ c = s.currentContext then s.contextSwitches
            else
              jsCapPush maxContextSwitches s.contextSwitches
                { timestamp := a.timestamp, fromContext := s.currentContext, toContext := c
                  duration := a.duration
                  reason := determineContextSwitchReason
                    { s with lastActivityTime := a.timestamp } a }) ∧
      (getContextSwitchStatistics
          ([contextSwitchAction ("file2") 1, contextSwitchAction ("terminal") 2,
            contextSwitchAction ("file1") 3].foldl (recordAction clock0)
            (mkTracker {} 0))).totalSwitches = 2 := by
  intro clk cfg now0 a s
  refine ⟨?_, ?_, recordAction_switches clk s a, ?_⟩
  · rw [recordAction_switches]
    cases hc : candidateContext a <;> simp [mkTracker]
  · rw [recordAction_currentContext]
    cases hc : candidateContext a <;> simp [mkTracker]
  · have hcand : ∀ (lbl : String) (ts : ℚ), lbl ≠ "" →
        candidateContext (contextSwitchAction lbl ts) = some lbl := by
      intro lbl ts h
      simp [candidateContext, contextSwitchAction, jsOrString, h]
    have hreason : ∀ (st : TrackerState) (act : BehavioralAction),
        act.type = ActionType.contextSwitch → act.metadata.reason = none →
        determineContextSwitchReason st act = SwitchReason.manual := by
      intro st act h1 h2
      simp [determineContextSwitchReason, h1, h2]
    simp only [List.foldl_cons, List.foldl_nil]
    set T0 := mkTracker {} 0 with hT0
    set S1 := recordAction clock0 T0 (contextSwitchAction ("file2") 1) with hS1
    set S2 := recordAction clock0 S1 (contextSwitchAction ("terminal") 2) with hS2
    set S3 := recordAction clock0 S2 (contextSwitchAction ("file1") 3) with hS3
    have hctx1 : S1.currentContext = "file2" := by
      rw [hS1, recordAction_currentContext, hcand _ _ (by simp)]
      simp [hT0, mkTracker]
    have hsw1 : S1.contextSwitches = [] := by
      rw [hS1, recordAction_switches, hcand _ _ (by simp)]
      simp [hT0, mkTracker]
    have hctx2 : S2.currentContext = "terminal" := by
      rw [hS2, recordAction_currentContext, hcand _ _ (by simp)]
      simp [hctx1]
    have hsw2 : S2.contextSwitches =
        [{ timestamp := 2, fromContext := "file2", toContext := "terminal", duration := 100
           reason := SwitchReason.manual }] := by
      rw [hS2, recordAction_switches, hcand _ _ (by simp)]
      simp [hctx1, hsw1, hreason, jsCapPush, maxContextSwitches, contextSwitchAction]
    have hsw3 : S3.contextSwitches =
        [{ timestamp := 2, fromContext := "file2", toContext := "terminal", duration := 100
           reason := SwitchReason.manual },
         { timestamp := 3, fromContext := "terminal", toContext := "file1", duration := 100
           reason := SwitchReason.manual }] := by
      rw [hS3, recordAction_switches, hcand _ _ (by simp)]
      simp [hctx2, hsw2, hreason, jsCapPush, maxContextSwitches, contextSwitchAction]
    simp [getContextSwitchStatistics, hsw3]

/-- `digitChar36` is invertible on digits below 36. -/
theorem unDigitChar36_digitChar36 : ∀ d : Nat, d < 36 → unDigitChar36 (digitChar36 d) = d := by
  decide

/-- No digit character is an underscore. -/
theorem digitChar36_ne_underscore : ∀ d : Nat, d < 36 → digitChar36 d ≠ '_' := by
  decide

/-- Every digit produced by `digitsRev` is below the base. -/
theorem digitsRev_lt (b : Nat) (hb : 0 < b) :
    ∀ (fuel n : Nat), ∀ d ∈ digitsRev b fuel n, d < b := by
  intro fuel
  induction fuel with
  | zero =>
      intro n d hd
      cases n <;> simp [digitsRev] at hd
  | succ f ih =>
      intro n d hd
      cases n with
      | zero => simp [digitsRev] at hd
      | succ m =>
          simp only [digitsRev, List.mem_cons] at hd
          rcases hd with h | h
          · subst h
            exact Nat.mod_lt _ hb
          · exact ih _ _ h

/-- With enough fuel, `digitsRev` is a section of `Nat.ofDigits`. -/
theorem ofDigits_digitsRev (b : Nat) (hb : 2 ≤ b) :
    ∀ (fuel n : Nat), n ≤ fuel → Nat.ofDigits b (digitsRev b fuel n) = n := by
  intro fuel
  induction fuel with
  | zero =>
      intro n hn
      have : n = 0 := Nat.le_zero.mp hn
      subst this
      simp [digitsRev, Nat.ofDigits]
  | succ f ih =>
      intro n hn
      cases n with
      | zero => simp [digitsRev, Nat.ofDigits]
      | succ m =>
          have hdiv : (m + 1) / b ≤ f := by
            have h1 : (m + 1) / b < m + 1 := Nat.div_lt_self (Nat.succ_pos m) (by omega)
            omega
          simp only [digitsRev]
          rw [Nat.ofDigits_cons, ih _ hdiv]
          have := Nat.mod_add_div (m + 1) b
          omega

/-- `natToDigitList` is injective for bases between 2 and 36. -/
theorem natToDigitList_inj (b : Nat) (hb : 2 ≤ b) (hb36 : b ≤ 36) {n m : Nat}
    (h : natToDigitList b n = natToDigitList b m) : n = m := by
  have inv : ∀ k, Nat.ofDigits b (((natToDigitList b k).map unDigitChar36).reverse) = k := by
    intro k
    by_cases hk : k = 0
    · subst hk
      have h0 : unDigitChar36 '0' = 0 := by decide
      simp [natToDigitList, h0, Nat.ofDigits]
    · simp only [natToDigitList, hk, if_false]
      rw [List.map_reverse, List.map_reverse, List.reverse_reverse, List.map_map]
      have hmap : (digitsRev b k k).map (unDigitChar36 ∘ digitChar36) = digitsRev b k k := by
        have : ∀ d ∈ digitsRev b k k, (unDigitChar36 ∘ digitChar36) d = id d := by
          intro d hd
          have hd36 : d < 36 := lt_of_lt_of_le (digitsRev_lt b (by omega) k k d hd) hb36
          simp [unDigitChar36_digitChar36 d hd36]
        rw [List.map_congr_left this, List.map_id]
      rw [hmap, ofDigits_digitsRev b hb k k le_rfl]
  have := inv n
  rw [h, inv m] at this
  exact this.symm

/-- The underscore never occurs in a rendered number. -/
theorem underscore_not_mem_natToDigitList (b n : Nat) (hb : 0 < b) (hb36 : b ≤ 36) :
    '_' ∉ natToDigitList b n := by
  by_cases hn : n = 0
  · subst hn
    simp [natToDigitList]
  · simp only [natToDigitList, hn, if_false]
    intro hmem
    rw [List.mem_map] at hmem
    obtain ⟨d, hd, hchar⟩ := hmem
    rw [List.mem_reverse] at hd
    have hd36 : d < 36 := lt_of_lt_of_le (digitsRev_lt b hb n n d hd) hb36
    exact digitChar36_ne_underscore d hd36 hchar

/-- Splitting on a separator character that occurs in neither prefix is
unambiguous. -/
theorem append_underscore_inj :
    ∀ (xs xs' ys ys' : List Char), '_' ∉ xs → '_' ∉ xs' →
      xs ++ '_' :: ys = xs' ++ '_' :: ys' → xs = xs' ∧ ys = ys' := by
  intro xs
  induction xs with
  | nil =>
      intro xs' ys ys' _ h2 heq
      cases xs' with
      | nil => simpa using heq
      | cons c t =>
          exfalso
          simp only [List.nil_append, List.cons_append, List.cons.injEq] at heq
          exact h2 (heq.1 ▸ List.mem_cons_self c t)
  | cons c t ih =>
      intro xs' ys ys' h1 h2 heq
      cases xs' with
      | nil =>
          exfalso
          simp only [List.nil_append, List.cons_append, List.cons.injEq] at heq
          exact h1 (heq.1 ▸ List.mem_cons_self c t)
      | cons c' t' =>
          simp only [List.cons_append, List.cons.injEq] at heq
          have ht := ih t' ys ys' (fun hm => h1 (List.mem_cons_of_mem c hm))
            (fun hm => h2 (List.mem_cons_of_mem c' hm)) heq.2
          exact ⟨by rw [heq.1, ht.1], ht.2⟩

/-- `generateSessionId` is injective in the wall-clock/random draw pair: the
decimal time part contains no underscore, the base-36 random part contains
no underscore, so the separators delimit both parts unambiguously. -/
theorem generateSessionId_inj {t r t2 r2 : Nat}
    (h : generateSessionId t r = generateSessionId t2 r2) : t = t2 ∧ r = r2 := by
  unfold generateSessionId at h
  have hdata : "session_".data ++ (natToDigitList 10 t ++ '_' :: natToDigitList 36 r) =
      "session_".data ++ (natToDigitList 10 t2 ++ '_' :: natToDigitList 36 r2) := by
    have := congrArg String.data h
    simpa [List.append_assoc] using this
  have hmid := List.append_cancel_left hdata
  have hsplit := append_underscore_inj _ _ _ _
    (underscore_not_mem_natToDigitList 10 t (by norm_num) (by norm_num))
    (underscore_not_mem_natToDigitList 10 t2 (by norm_num) (by norm_num)) hmid
  exact ⟨natToDigitList_inj 10 (by norm_num) (by norm_num) hsplit.1,
    natToDigitList_inj 36 (by norm_num) (by norm_num) hsplit.2⟩

/-- **C8**: provided the wall-clock/random draw pair feeding the new session
id differs from the pair that produced the current id (the source relies on
`Date.now()` plus a random suffix for this), and the generated id is fresh
with respect to the stored history, `startNewSession()` yields a session id
different from the previous one, resets `metricsCount` to 0, clears the
keystroke analyzer's buffers, and leaves both the pattern index and the
long-term metrics history unchanged. -/
theorem startNewSession_spec :
    ∀ (s : EngineState) (t0 r0 t r : Nat) (now now2 : ℚ),
      s.patternStorage.currentSession = generateSessionId t0 r0 →
      (t, r) ≠ (t0, r0) →
      (∀ m ∈ s.metricsHistory, m.sessionId ≠ generateSessionId t r) →
      (startNewSession t r now s).patternStorage.currentSession ≠
          s.patternStorage.currentSession ∧
        (getSessionStatistics now2 (startNewSession t r now s)).metricsCount = 0 ∧
        (startNewSession t r now s).keystrokeAnalyzer = initAnalyzer ∧
        (startNewSession t r now s).patternStorage.patterns = s.patternStorage.patterns ∧
        (startNewSession t r now s).metricsHistory = s.metricsHistory := by
  intro s t0 r0 t r now now2 hcur hne hhist
  refine ⟨?_, ?_, rfl, rfl, rfl⟩
  · intro heq
    rw [hcur] at heq
    have hinj := generateSessionId_inj heq
    exact hne (by rw [hinj.1, hinj.2])
  · simp only [getSessionStatistics, startNewSession]
    rw [List.length_eq_zero, List.filter_eq_nil_iff]
    intro m hm
    simpa using hhist m hm

/-- **C8 witness**: the theorem applied to `sampleEngine` (current session
generated from the draw `(1, 2)`, one history entry in that session) with
the fresh draw `(3, 4)`. -/
theorem startNewSession_spec_witness :
    (startNewSession 3 4 5 sampleEngine).patternStorage.currentSession ≠
        sampleEngine.patternStorage.currentSession ∧
      (getSessionStatistics 6 (startNewSession 3 4 5 sampleEngine)).metricsCount = 0 ∧
      (startNewSession 3 4 5 sampleEngine).keystrokeAnalyzer = initAnalyzer ∧
      (startNewSession 3 4 5 sampleEngine).patternStorage.patterns =
        sampleEngine.patternStorage.patterns ∧
      (startNewSession 3 4 5 sampleEngine).metricsHistory = sampleEngine.metricsHistory :=
  startNewSession_spec sampleEngine 1 2 3 4 5 6 rfl (by decide) (by decide)

/-- Membership in a capped push comes from the old buffer or is the new
entry. -/
theorem mem_jsCapPush {α : Type} {cap : Nat} {l : List α} {x y : α}
    (h : y ∈ jsCapPush cap l x) : y ∈ l ∨ y = x := by
  unfold jsCapPush at h
  dsimp only at h
  split at h
  · have := List.tail_subset (l ++ [x]) h
    simpa using this
  · simpa using h

/-- `detectContextSwitch` does not touch the action buffer, the sequence
history or the config. -/
theorem detectContextSwitch_frame (s : TrackerState) (a : BehavioralAction) :
    (detectContextSwitch s a).actionBuffer = s.actionBuffer ∧
      (detectContextSwitch s a).sequences = s.sequences ∧
      (detectContextSwitch s a).config = s.config := by
  unfold detectContextSwitch
  cases hc : candidateContext a with
  | none => exact ⟨rfl, rfl, rfl⟩
  | some c =>
      dsimp only
      by_cases h1 : s.currentContext = ""
      · simp [h1, startNewFocusSegment]
      · by_cases h2 : c ≠ s.currentContext
        · simp [h1, h2, startNewFocusSegment, (endCurrentFocusSegment_frame _ _).2.2.1,
            (endCurrentFocusSegment_frame _ _).2.2.2.1, (endCurrentFocusSegment_frame _ _).2.2.2.2]
        · simp [h1, h2]

/-- One `recordAction` step preserves the C10 invariant: with an integral
positive capacity `n`, the buffer stays strictly below `n` (completion
clears it the moment it reaches `n`) and every stored sequence holds
exactly `n` actions. -/
theorem recordAction_sequence_invariant (clk : Clock) (n : Nat) (hn : 0 < n)
    (s : TrackerState) (hcfg : s.config.bufferSize = (n : ℚ))
    (hbuf : s.actionBuffer.length < n)
    (hseq : ∀ sq ∈ s.sequences, sq.actions.length = n) (a : BehavioralAction) :
    (recordAction clk s a).config.bufferSize = (n : ℚ) ∧
      (recordAction clk s a).actionBuffer.length < n ∧
      ∀ sq ∈ (recordAction clk s a).sequences, sq.actions.length = n := by
  unfold recordAction
  dsimp only
  have hnoshift : ¬ s.config.bufferSize < (((s.actionBuffer ++ [a]).length : Nat) : ℚ) := by
    rw [hcfg, not_lt]
    have : s.actionBuffer.length + 1 ≤ n := hbuf
    exact_mod_cast (by simpa using this : (s.actionBuffer ++ [a]).length ≤ n)
  rw [if_neg hnoshift]
  have hf1 := detectContextSwitch_frame
    { s with actionBuffer := s.actionBuffer ++ [a], lastActivityTime := a.timestamp } a
  have hf2 := updateFocusTracking_frame
    (detectContextSwitch
      { s with actionBuffer := s.actionBuffer ++ [a], lastActivityTime := a.timestamp } a) a
  set s3 := updateFocusTracking
    (detectContextSwitch
      { s with actionBuffer := s.actionBuffer ++ [a], lastActivityTime := a.timestamp } a) a
    with hs3
  have hb3 : s3.actionBuffer = s.actionBuffer ++ [a] := by rw [hs3, hf2.2.2.1, hf1.1]
  have hq3 : s3.sequences = s.sequences := by rw [hs3, hf2.2.2.2.1, hf1.2.1]
  have hc3 : s3.config = s.config := by rw [hs3, hf2.2.2.2.2, hf1.2.2]
  unfold checkSequenceCompletion
  by_cases hfull : s3.config.bufferSize ≤ ((s3.actionBuffer.length : Nat) : ℚ)
  · rw [if_pos hfull]
    have hlen : s3.actionBuffer.length = s.actionBuffer.length + 1 := by simp [hb3]
    have hexact : s.actionBuffer.length + 1 = n := by
      rw [hc3, hcfg, hlen] at hfull
      have : n ≤ s.actionBuffer.length + 1 := by exact_mod_cast hfull
      omega
    unfold completeCurrentSequence
    rw [if_neg (by omega : ¬ s3.actionBuffer.length = 0)]
    dsimp only
    refine ⟨by rw [hc3, hcfg], by simpa using hn, ?_⟩
    intro sq hsq
    rcases mem_jsCapPush hsq with h | h
    · rw [hq3] at h
      exact hseq sq h
    · rw [h]
      dsimp only
      rw [hlen, hexact]
  · rw [if_neg hfull]
    refine ⟨by rw [hc3, hcfg], ?_, by rw [hq3]; exact hseq⟩
    rw [hc3, hcfg] at hfull
    have : ¬ (n : ℚ) ≤ (s3.actionBuffer.length : ℚ) := by exact_mod_cast hfull
    have hlt : s3.actionBuffer.length < n := by
      by_contra hcon
      exact this (by exact_mod_cast Nat.le_of_not_lt hcon)
    exact hlt

/-- The C10 invariant holds along any run of `recordAction` calls. -/
theorem foldl_recordAction_invariant (clk : Clock) (n : Nat) (hn : 0 < n) :
    ∀ (actions : List BehavioralAction) (s : TrackerState),
      s.config.bufferSize = (n : ℚ) → s.actionBuffer.length < n →
      (∀ sq ∈ s.sequences, sq.actions.length = n) →
      (actions.foldl (recordAction clk) s).config.bufferSize = (n : ℚ) ∧
        (actions.foldl (recordAction clk) s).actionBuffer.length < n ∧
        ∀ sq ∈ (actions.foldl (recordAction clk) s).sequences, sq.actions.length = n := by
  intro actions
  induction actions with
  | nil => intro s h1 h2 h3; exact ⟨h1, h2, h3⟩
  | cons a rest ih =>
      intro s h1 h2 h3
      simp only [List.foldl_cons]
      obtain ⟨k1, k2, k3⟩ := recordAction_sequence_invariant clk n hn s h1 h2 h3 a
      exact ih _ k1 k2 k3

/-- **C10**: with a positive integral configured `bufferSize = n`, after any
run of `recordAction` calls from a fresh tracker every `ActionSequence`
appended to the history holds exactly `n` actions, and the internal action
buffer always holds strictly fewer than `n` actions (completion clears it
the moment it fills). -/
theorem sequence_size_spec :
    ∀ (cfg : SequenceConfigOverride) (now0 : ℚ) (clk : Clock) (n : Nat)
      (actions : List BehavioralAction),
      (mkSequenceConfig cfg).bufferSize = (n : ℚ) → 0 < n →
      (∀ sq ∈ (actions.foldl (recordAction clk) (mkTracker cfg now0)).sequences,
          sq.actions.length = n) ∧
        (actions.foldl (recordAction clk) (mkTracker cfg now0)).actionBuffer.length < n := by
  intro cfg now0 clk n actions hcfg hn
  have h := foldl_recordAction_invariant clk n hn actions (mkTracker cfg now0)
    (by simpa [mkTracker] using hcfg) (by simpa [mkTracker] using hn)
    (by simp [mkTracker])
  exact ⟨h.2.2, h.2.1⟩

/-- **C10 witness**: with `bufferSize = 2` and two recorded actions, the run
satisfies the invariant (one completed sequence of exactly 2 actions, an
empty buffer). -/
theorem sequence_size_spec_witness :
    (mkSequenceConfig { bufferSize := some 2 }).bufferSize = ((2 : Nat) : ℚ) ∧
      ((∀ sq ∈ ([keystrokeAction 1, keystrokeAction 2].foldl (recordAction clock0)
            (mkTracker { bufferSize := some 2 } 0)).sequences,
          sq.actions.length = 2) ∧
        ([keystrokeAction 1, keystrokeAction 2].foldl (recordAction clock0)
            (mkTracker { bufferSize := some 2 } 0)).actionBuffer.length < 2) :=
  ⟨by norm_num [mkSequenceConfig, jsOrNum],
    sequence_size_spec { bufferSize := some 2 } 0 clock0 2 [keystrokeAction 1, keystrokeAction 2]
      (by norm_num [mkSequenceConfig, jsOrNum]) (by norm_num)⟩

/-- `lastN` keeps at most `n` entries. -/
theorem lastN_length {α : Type} (n : Nat) (l : List α) :
    (lastN n l).length = min n l.length := by
  simp only [lastN, List.length_drop]
  omega

/-- Pushing through the capped buffer is exactly "keep the last `cap`
entries of the extended stream". -/
theorem jsCapPush_lastN {α : Type} (cap : Nat) (hcap : 1 ≤ cap) (l : List α) (x : α) :
    jsCapPush cap (lastN cap l) x = lastN cap (l ++ [x]) := by
  unfold jsCapPush lastN
  dsimp only
  by_cases h : l.length < cap
  · have h0 : l.length - cap = 0 := by omega
    have hc : ¬ cap < (l ++ [x]).length := by
      simp only [List.length_append, List.length_singleton]
      omega
    have h1 : (l ++ [x]).length - cap = 0 := by
      simp only [List.length_append, List.length_singleton]
      omega
    rw [h0, List.drop_zero, if_neg hc, h1, List.drop_zero]
  · have hge : cap ≤ l.length := Nat.le_of_not_lt h
    have hlenN : (l.drop (l.length - cap)).length = cap := by
      rw [List.length_drop]
      omega
    have hcond : cap < (l.drop (l.length - cap) ++ [x]).length := by
      rw [List.length_append, hlenN]
      simp
    rw [if_pos hcond]
    have hne : l.drop (l.length - cap) ≠ [] := by
      intro hnil
      rw [hnil] at hlenN
      simp at hlenN
      omega
    have htail : (l.drop (l.length - cap) ++ [x]).tail = (l.drop (l.length - cap)).tail ++ [x] := by
      cases hd : l.drop (l.length - cap) with
      | nil => exact absurd hd hne
      | cons a t => simp
    rw [htail, List.tail_drop]
    rw [show (l ++ [x]).length = l.length + 1 by simp,
      List.drop_append_of_le_length (by omega : l.length + 1 - cap ≤ l.length)]
    congr 2
    omega

/-- `lastN` of an extended stream, in drop-append form. -/
theorem lastN_append_singleton {α : Type} (cap : Nat) (hcap : 1 ≤ cap) (l : List α) (x : α) :
    lastN cap (l ++ [x]) = l.drop (l.length + 1 - cap) ++ [x] := by
  unfold lastN
  rw [List.length_append, List.length_singleton,
    List.drop_append_of_le_length (by omega : l.length + 1 - cap ≤ l.length)]

/-- Dropping a strict prefix preserves the last element. -/
theorem getLast?_drop_of_lt {α : Type} (l : List α) (k : Nat) (h : k < l.length) :
    (l.drop k).getLast? = l.getLast? := by
  conv_rhs => rw [← List.take_append_drop k l]
  rw [List.getLast?_append_of_ne_nil]
  intro hnil
  rw [List.drop_eq_nil_iff] at hnil
  omega

/-- The second-to-last entry of `zs ++ [y]` is the last entry of `zs`. -/
theorem getElem?_append_sub_two {α : Type} (zs : List α) (y : α) (h : zs ≠ []) :
    (zs ++ [y])[(zs ++ [y]).length - 2]? = zs.getLast? := by
  have hpos : 0 < zs.length := List.length_pos.mpr h
  have hlen : (zs ++ [y]).length = zs.length + 1 := by simp
  rw [hlen]
  have hidx : zs.length + 1 - 2 = zs.length - 1 := by omega
  rw [hidx, List.getElem?_append_left (by omega : zs.length - 1 < zs.length),
    List.getLast?_eq_getElem?]

/-- Appending one value to a nonempty timestamp stream appends one adjacent
difference. -/
theorem adjacentIntervals_append (l : List ℚ) (x y : ℚ) (h : l.getLast? = some y) :
    adjacentIntervals (l ++ [x]) = adjacentIntervals l ++ [x - y] := by
  induction l with
  | nil => simp at h
  | cons a t ih =>
      cases t with
      | nil =>
          simp only [List.getLast?_singleton, Option.some_inj] at h
          subst h
          simp [adjacentIntervals]
      | cons b t2 =>
          have h2 : (b :: t2).getLast? = some y := by
            rwa [List.getLast?_cons_cons] at h
          have ih2 := ih h2
          simp only [List.cons_append, adjacentIntervals, List.append_eq] at ih2 ⊢
          rw [ih2]

/-- One `processKeystroke` step preserves the FIFO characterization of both
analyzer buffers: the event buffer holds the last 100 hashed events of the
stream, the interval buffer the last 100 adjacent timestamp differences. -/
theorem processKeystroke_step (pre : List KeystrokeEvent) (e : KeystrokeEvent) (s : AnalyzerState)
    (h1 : s.keyEvents = lastN 100 (pre.map hashEvent))
    (h2 : s.timingBuffer =
      lastN 100 (adjacentIntervals (pre.map (fun ev => ev.timestamp)))) :
    (processKeystroke s e).keyEvents = lastN 100 ((pre ++ [e]).map hashEvent) ∧
      (processKeystroke s e).timingBuffer =
        lastN 100 (adjacentIntervals ((pre ++ [e]).map (fun ev => ev.timestamp))) := by
  have hkv : jsCapPush analyzerBufferSize s.keyEvents (hashEvent e) =
      lastN 100 (pre.map hashEvent ++ [hashEvent e]) := by
    rw [show analyzerBufferSize = 100 from rfl, h1, jsCapPush_lastN 100 (by norm_num)]
  unfold processKeystroke
  dsimp only
  rw [hkv]
  constructor
  · simp [List.map_append]
  · cases pre with
    | nil =>
        have ht : s.timingBuffer = [] := by simpa [lastN, adjacentIntervals] using h2
        simp [lastN, ht, adjacentIntervals]
    | cons p ps =>
        set A := (p :: ps).map hashEvent with hA
        have hAlen : 1 ≤ A.length := by simp [hA]
        have hlast : lastN 100 (A ++ [hashEvent e]) =
            A.drop (A.length + 1 - 100) ++ [hashEvent e] :=
          lastN_append_singleton 100 (by norm_num) A (hashEvent e)
        have hdroplen : 1 ≤ (A.drop (A.length + 1 - 100)).length := by
          rw [List.length_drop]
          omega
        have hdropne : A.drop (A.length + 1 - 100) ≠ [] := by
          intro hnil
          rw [hnil] at hdroplen
          simp at hdroplen
        have hcond : 1 < (lastN 100 (A ++ [hashEvent e])).length := by
          rw [hlast, List.length_append, List.length_singleton]
          omega
        have hq : (p :: ps).getLast? = some ((p :: ps).getLast (by simp)) :=
          List.getLast?_eq_getLast _ _
        have hscrut :
            (lastN 100 (A ++ [hashEvent e]))[(lastN 100 (A ++ [hashEvent e])).length - 2]? =
              some (hashEvent ((p :: ps).getLast (by simp))) := by
          rw [hlast, getElem?_append_sub_two _ _ hdropne,
            getLast?_drop_of_lt _ _ (by omega : A.length + 1 - 100 < A.length), hA,
            List.getLast?_map, hq]
          rfl
        have hlastts : ((p :: ps).map (fun ev => ev.timestamp)).getLast? =
            some ((p :: ps).getLast (by simp)).timestamp := by
          rw [List.getLast?_map, hq]
          rfl
        rw [if_pos hcond, hscrut]
        dsimp only
        rw [show analyzerBufferSize = 100 from rfl, h2, jsCapPush_lastN 100 (by norm_num)]
        congr 1
        rw [List.map_append,
          show List.map (fun ev : KeystrokeEvent => ev.timestamp) [e] = [e.timestamp] from rfl,
          adjacentIntervals_append _ _ _ hlastts]
        rfl

/-- The analyzer run characterization: starting from a state corresponding
to an already-processed prefix, folding further events keeps both buffers
equal to the last 100 entries of the respective streams. -/
theorem foldl_processKeystroke (events : List KeystrokeEvent) :
    ∀ (pre : List KeystrokeEvent) (s : AnalyzerState),
      s.keyEvents = lastN 100 (pre.map hashEvent) →
      s.timingBuffer = lastN 100 (adjacentIntervals (pre.map (fun ev => ev.timestamp))) →
      (events.foldl processKeystroke s).keyEvents =
          lastN 100 ((pre ++ events).map hashEvent) ∧
        (events.foldl processKeystroke s).timingBuffer =
          lastN 100 (adjacentIntervals ((pre ++ events).map (fun ev => ev.timestamp))) := by
  induction events with
  | nil =>
      intro pre s h1 h2
      simpa using ⟨h1, h2⟩
  | cons e rest ih =>
      intro pre s h1 h2
      simp only [List.foldl_cons]
      obtain ⟨k1, k2⟩ := processKeystroke_step pre e s h1 h2
      have := ih (pre ++ [e]) _ k1 k2
      simpa [List.append_assoc] using this

/-- One `recordAction` step keeps the buffer length below the (possibly
fractional) configured capacity, assuming only that the capacity is
nonnegative. -/
theorem recordAction_buffer_le (clk : Clock) (s : TrackerState)
    (hb : 0 ≤ s.config.bufferSize)
    (hlen : (s.actionBuffer.length : ℚ) ≤ s.config.bufferSize) (a : BehavioralAction) :
    (recordAction clk s a).config = s.config ∧
      ((recordAction clk s a).actionBuffer.length : ℚ) ≤ s.config.bufferSize := by
  unfold recordAction
  dsimp only
  have hb2 : ((if s.config.bufferSize < (((s.actionBuffer ++ [a]).length : Nat) : ℚ) then
      (s.actionBuffer ++ [a]).tail else s.actionBuffer ++ [a]).length : ℚ) ≤
        s.config.bufferSize := by
    split
    · simpa using hlen
    · rename_i hc
      exact le_of_not_lt hc
  have hf1 := detectContextSwitch_frame
    { s with
      actionBuffer := if s.config.bufferSize < (((s.actionBuffer ++ [a]).length : Nat) : ℚ) then
        (s.actionBuffer ++ [a]).tail else s.actionBuffer ++ [a]
      lastActivityTime := a.timestamp } a
  have hf2 := updateFocusTracking_frame
    (detectContextSwitch
      { s with
        actionBuffer := if s.config.bufferSize < (((s.actionBuffer ++ [a]).length : Nat) : ℚ) then
          (s.actionBuffer ++ [a]).tail else s.actionBuffer ++ [a]
        lastActivityTime := a.timestamp } a) a
  set s3 := updateFocusTracking
    (detectContextSwitch
      { s with
        actionBuffer := if s.config.bufferSize < (((s.actionBuffer ++ [a]).length : Nat) : ℚ) then
          (s.actionBuffer ++ [a]).tail else s.actionBuffer ++ [a]
        lastActivityTime := a.timestamp } a) a with hs3
  have hb3 : (s3.actionBuffer.length : ℚ) ≤ s.config.bufferSize := by
    rw [hs3, hf2.2.2.1, hf1.1]
    exact hb2
  have hc3 : s3.config = s.config := by rw [hs3, hf2.2.2.2.2, hf1.2.2]
  unfold checkSequenceCompletion completeCurrentSequence
  split
  · split
    · exact ⟨hc3, hb3⟩
    · exact ⟨hc3, by simpa using hb⟩
  · exact ⟨hc3, hb3⟩

/-- The tracker buffer bound holds along any run of `recordAction` calls. -/
theorem foldl_recordAction_le (clk : Clock) :
    ∀ (actions : List BehavioralAction) (s : TrackerState),
      0 ≤ s.config.bufferSize → (s.actionBuffer.length : ℚ) ≤ s.config.bufferSize →
      (actions.foldl (recordAction clk) s).config = s.config ∧
        ((actions.foldl (recordAction clk) s).actionBuffer.length : ℚ) ≤
          s.config.bufferSize := by
  intro actions
  induction actions with
  | nil => intro s h1 h2; exact ⟨rfl, h2⟩
  | cons a rest ih =>
      intro s h1 h2
      simp only [List.foldl_cons]
      obtain ⟨k1, k2⟩ := recordAction_buffer_le clk s h1 h2 a
      have := ih (recordAction clk s a) (by rw [k1]; exact h1) (by rw [k1]; exact k2)
      exact ⟨by rw [this.1, k1], by rw [← k1]; exact this.2⟩

/-- **C4**: after any number of `processKeystroke` calls from a fresh
analyzer, the event buffer holds exactly the last (at most 100) hashed
events of the stream and the interval buffer exactly the last (at most
100) adjacent timestamp differences — FIFO eviction of the oldest entries,
both lengths bounded by 100; and after any run of `recordAction` calls
from a fresh tracker with nonnegative configured capacity, the action
buffer length never exceeds `bufferSize`. -/
theorem buffer_bounds_spec :
    ∀ (events : List KeystrokeEvent) (cfg : SequenceConfigOverride) (now0 : ℚ) (clk : Clock)
      (actions : List BehavioralAction),
      (events.foldl processKeystroke initAnalyzer).keyEvents =
          lastN 100 (events.map hashEvent) ∧
        (events.foldl processKeystroke initAnalyzer).timingBuffer =
          lastN 100 (adjacentIntervals (events.map (fun ev => ev.timestamp))) ∧
        (events.foldl processKeystroke initAnalyzer).keyEvents.length ≤ 100 ∧
        (events.foldl processKeystroke initAnalyzer).timingBuffer.length ≤ 100 ∧
        (0 ≤ (mkSequenceConfig cfg).bufferSize →
          ((actions.foldl (recordAction clk) (mkTracker cfg now0)).actionBuffer.length : ℚ) ≤
            (mkSequenceConfig cfg).bufferSize) := by
  intro events cfg now0 clk actions
  have hrun := foldl_processKeystroke events [] initAnalyzer (by simp [initAnalyzer, lastN])
    (by simp [initAnalyzer, adjacentIntervals, lastN])
  simp only [List.nil_append] at hrun
  refine ⟨hrun.1, hrun.2, ?_, ?_, ?_⟩
  · rw [hrun.1, lastN_length]
    omega
  · rw [hrun.2, lastN_length]
    omega
  · intro hpos
    have := foldl_recordAction_le clk actions (mkTracker cfg now0)
      (by simp only [mkTracker]; exact hpos) (by simp only [mkTracker]; simpa using hpos)
    simpa [mkTracker] using this.2

/-- **C4 witness**: the tracker conjunct applied with the default config
(`bufferSize = 50 ≥ 0`) and a two-action run. -/
theorem buffer_bounds_spec_witness :
    0 ≤ (mkSequenceConfig {}).bufferSize ∧
      ((([keystrokeAction 1, keystrokeAction 2].foldl (recordAction clock0)
            (mkTracker {} 0)).actionBuffer.length : ℚ) ≤
        (mkSequenceConfig {}).bufferSize) :=
  ⟨by norm_num [mkSequenceConfig, jsOrNum],
    (buffer_bounds_spec [] {} 0 clock0 [keystrokeAction 1, keystrokeAction 2]).2.2.2.2
      (by norm_num [mkSequenceConfig, jsOrNum])⟩
